import Mathlib

set_option maxHeartbeats 1000000
set_option maxRecDepth 4000

/-!
Verification development for the `generate-plugin-options` core of the
nixcord repository: a shallow embedding of the symbolic evaluator
(`core/ast/foundation.ts`), the options pattern matcher
(`core/ast/extractor/select/options/*`), the type classifier
(`tsTypeToNixType`, `inferNixTypeAndEnumValues`), the default resolver
(`default-value-resolution.ts`, the select-default module) and the
settings-tree extractor, together with theorems about their behaviour.

JavaScript numbers are modelled as rationals (`Rat`): every numeric
literal the evaluator handles is a finite decimal, and the properties
proved below depend on success/failure and on integrality
(`Number.isInteger`), which the rational model captures exactly.
NaN/Infinity corner cases of IEEE arithmetic are not representable; no
theorem below depends on the numeric value of an overflowing or
divide-by-zero operation.
-/

/-- `EnumLiteral = string | number | boolean` (foundation.ts). -/
inductive JsLit where
  | str (s : String)
  | num (q : Rat)
  | bool (b : Bool)
deriving DecidableEq, Repr

/-- JavaScript `unknown` values as flowing through default-value extraction:
`undefined`, `null`, primitives, arrays and plain objects. -/
inductive JsVal where
  | undef
  | null
  | str (s : String)
  | num (q : Rat)
  | bool (b : Bool)
  | arr (elems : List JsVal)
  | obj (fields : List (String × JsVal))

/-- Embed an `EnumLiteral` into `unknown`. -/
def JsLit.toVal : JsLit → JsVal
  | .str s => .str s
  | .num q => .num q
  | .bool b => .bool b

/-- Binary operator tokens (`binExpr.getOperatorToken().getKind()`). The
eleven operators of `BINARY_OPERATORS` get their own constructors;
`eqEqEq` (used by the select-default module) and a catch-all `other`
cover the remaining token kinds. -/
inductive BinOp where
  | bar | amp | caret | shl | shr | ushr | plus | minus | mul | div | mod
  | eqEqEq
  | other (token : String)
deriving DecidableEq, Repr

mutual
/-- ts-morph AST nodes, restricted to the syntax kinds the extractor
inspects.  `asExpr` carries the text of its type annotation node
(`getTypeNode().getText()`), which the default-value checks test against
array-type patterns.  Every kind the code can meet but never
deconstructs is collapsed into `other kindName`. -/
inductive TsNode where
  | strLit (s : String)
  | numLit (q : Rat)
  | tmplLit (s : String)
  | bigintLit (raw : String)
  | trueKw
  | falseKw
  | nullKw
  | undefinedKw
  | ident (name : String)
  | propAccess (base : TsNode) (name : String)
  | binary (l : TsNode) (op : BinOp) (r : TsNode)
  | asExpr (e : TsNode) (typeText : String)
  | typeAssertion (e : TsNode)
  | paren (e : TsNode)
  | arrayLit (elems : List TsNode)
  | spreadElem (e : TsNode)
  | objectLit (props : List ObjProp)
  | callExpr (callee : TsNode) (args : List TsNode)
  | arrowFn (body : TsNode)
  | elemAccess (base : TsNode) (index : TsNode)
  | otherKind (kindName : String)

/-- Members of an object literal: property assignments, get-accessors,
method declarations, anything else. -/
inductive ObjProp where
  | assign (name : String) (init : TsNode)
  | getAccessor (name : String)
  | methodDecl (name : String)
  | otherMember
end

mutual
def TsNode.beq : TsNode → TsNode → Bool
  | .strLit a, .strLit b => a == b
  | .numLit a, .numLit b => a == b
  | .tmplLit a, .tmplLit b => a == b
  | .bigintLit a, .bigintLit b => a == b
  | .trueKw, .trueKw => true
  | .falseKw, .falseKw => true
  | .nullKw, .nullKw => true
  | .undefinedKw, .undefinedKw => true
  | .ident a, .ident b => a == b
  | .propAccess a n, .propAccess b m => TsNode.beq a b && n == m
  | .binary l1 o1 r1, .binary l2 o2 r2 => TsNode.beq l1 l2 && o1 == o2 && TsNode.beq r1 r2
  | .asExpr a t1, .asExpr b t2 => TsNode.beq a b && t1 == t2
  | .typeAssertion a, .typeAssertion b => TsNode.beq a b
  | .paren a, .paren b => TsNode.beq a b
  | .arrayLit xs, .arrayLit ys => TsNode.beqList xs ys
  | .spreadElem a, .spreadElem b => TsNode.beq a b
  | .objectLit ps, .objectLit qs => ObjProp.beqList ps qs
  | .callExpr f xs, .callExpr g ys => TsNode.beq f g && TsNode.beqList xs ys
  | .arrowFn a, .arrowFn b => TsNode.beq a b
  | .elemAccess a i, .elemAccess b j => TsNode.beq a b && TsNode.beq i j
  | .otherKind a, .otherKind b => a == b
  | _, _ => false
termination_by structural x => x

def TsNode.beqList : List TsNode → List TsNode → Bool
  | [], [] => true
  | x :: xs, y :: ys => TsNode.beq x y && TsNode.beqList xs ys
  | _, _ => false
termination_by structural xs => xs

def ObjProp.beq : ObjProp → ObjProp → Bool
  | .assign n a, .assign m b => n == m && TsNode.beq a b
  | .getAccessor n, .getAccessor m => n == m
  | .methodDecl n, .methodDecl m => n == m
  | .otherMember, .otherMember => true
  | _, _ => false
termination_by structural p => p

def ObjProp.beqList : List ObjProp → List ObjProp → Bool
  | [], [] => true
  | p :: ps, q :: qs => ObjProp.beq p q && ObjProp.beqList ps qs
  | _, _ => false
termination_by structural ps => ps
end

instance : BEq TsNode := ⟨TsNode.beq⟩

/-- `node.getKindName()`, used in evaluator error messages. -/
def TsNode.kindName : TsNode → String
  | .strLit _ => "StringLiteral"
  | .numLit _ => "NumericLiteral"
  | .tmplLit _ => "NoSubstitutionTemplateLiteral"
  | .bigintLit _ => "BigIntLiteral"
  | .trueKw => "TrueKeyword"
  | .falseKw => "FalseKeyword"
  | .nullKw => "NullKeyword"
  | .undefinedKw => "UndefinedKeyword"
  | .ident _ => "Identifier"
  | .propAccess _ _ => "PropertyAccessExpression"
  | .binary _ _ _ => "BinaryExpression"
  | .asExpr _ _ => "AsExpression"
  | .typeAssertion _ => "TypeAssertionExpression"
  | .paren _ => "ParenthesizedExpression"
  | .arrayLit _ => "ArrayLiteralExpression"
  | .spreadElem _ => "SpreadElement"
  | .objectLit _ => "ObjectLiteralExpression"
  | .callExpr _ _ => "CallExpression"
  | .arrowFn _ => "ArrowFunction"
  | .elemAccess _ _ => "ElementAccessExpression"
  | .otherKind k => k

/-- List containment of a contiguous sublist. -/
def listContainsSub {a : Type} [BEq a] : List a → List a → Bool
  | _, [] => true
  | [], _ => false
  | x :: xs, pat => List.isPrefixOf pat (x :: xs) || listContainsSub xs pat

/-- `s.includes(pat)`: substring containment, computed over the
character lists. -/
def strIncludes (s pat : String) : Bool :=
  listContainsSub s.data pat.data

/-- `s.startsWith(pat)`. -/
def strStartsWith (s pat : String) : Bool :=
  List.isPrefixOf pat.data s.data

/-- `s.endsWith(pat)`. -/
def strEndsWith (s pat : String) : Bool :=
  List.isSuffixOf pat.data s.data

mutual
/-- `node.getText()`: re-rendered source text.  Exact only for the node
shapes whose text the code actually compares (identifiers, property
accesses such as `OptionType.CUSTOM`, the literal `undefined`);
composite nodes render plausibly but no claim depends on them. -/
def TsNode.getText : TsNode → String
  | .strLit s => "\x22" ++ s ++ "\x22"
  | .numLit q => if q.den == 1 then toString q.num else toString q
  | .tmplLit s => "\x60" ++ s ++ "\x60"
  | .bigintLit raw => raw
  | .trueKw => "true"
  | .falseKw => "false"
  | .nullKw => "null"
  | .undefinedKw => "undefined"
  | .ident n => n
  | .propAccess base n => TsNode.getText base ++ "." ++ n
  | .binary l _ r => TsNode.getText l ++ " ? " ++ TsNode.getText r
  | .asExpr e t => TsNode.getText e ++ " as " ++ t
  | .typeAssertion e => "<T>" ++ TsNode.getText e
  | .paren e => "(" ++ TsNode.getText e ++ ")"
  | .arrayLit xs => "[" ++ TsNode.getTextList xs ++ "]"
  | .spreadElem e => "..." ++ TsNode.getText e
  | .objectLit _ => "\x7b ... \x7d"
  | .callExpr f xs => TsNode.getText f ++ "(" ++ TsNode.getTextList xs ++ ")"
  | .arrowFn b => "() => " ++ TsNode.getText b
  | .elemAccess b i => TsNode.getText b ++ "[" ++ TsNode.getText i ++ "]"
  | .otherKind k => "<" ++ k ++ ">"

def TsNode.getTextList : List TsNode → String
  | [] => ""
  | [x] => TsNode.getText x
  | x :: xs => TsNode.getText x ++ ", " ++ TsNode.getTextList xs
end

/-- The enum-member value declaration the semantic symbol of a qualified
`base.member` access can resolve to (`evaluatePropertyAccess`): the
`getValue()` result, if any, and the member's initializer, if any. -/
structure EnumMemberDecl where
  getValue : Option JsLit
  init : Option TsNode

/-- The result of `checker.getTypeAtLocation(typeNode)` as consumed by
`inferTypeFromTypeScriptType`: the symbol/type name and the texts of the
union members (empty when the type is not a union). -/
structure TsTypeInfo where
  typeName : String
  unionTexts : List String

/-- The semantic context: the project's symbol table and type checker,
restricted to the queries the extractor makes.
* `varInit` — `identifier.getSymbol()?.getValueDeclaration()` when that
  declaration is a variable declaration: its initializer (aliased
  symbols are resolved into the same table, mirroring the
  `getAliasedSymbol` fallbacks).
* `fileVarInit` — `getSourceFile().getVariableDeclaration(name)`'s
  initializer: the lexical fallback used when symbol lookup fails.
* `enumMemberOf` — the value declaration of the symbol of a property
  access `base.member`, when it is an enum member.
* `typeAt` — `checker.getTypeAtLocation` on a type-position node.
* `arrowDecl` — symbols whose value declaration is an arrow function
  (used by `resolveFuncBody` / `resolveCallExpressionReturn`): the body.
-/
structure Checker where
  varInit : List (String × TsNode)
  fileVarInit : List (String × TsNode)
  enumMemberOf : List ((String × String) × EnumMemberDecl)
  identEnumMember : List (String × EnumMemberDecl)
  typeAt : TsNode → Option TsTypeInfo
  arrowDecl : List (String × TsNode)

/-- Association-list lookup (first match wins, as symbol tables are keyed). -/
def alistFind {α : Type} (l : List (String × α)) (key : String) : Option α :=
  match l with
  | [] => none
  | (k, v) :: rest => if k == key then some v else alistFind rest key

def alistFind2 {α : Type} (l : List ((String × String) × α)) (k1 k2 : String) : Option α :=
  match l with
  | [] => none
  | ((a, b), v) :: rest => if a == k1 && b == k2 then some v else alistFind2 rest k1 k2

/-- Evaluation errors (`EvaluationError`): the message and the offending
node's kind name stand in for the error object. -/
structure EvaluationError where
  message : String
  kindName : String
deriving DecidableEq, Repr

def createEvaluationError (message : String) (node : TsNode) : EvaluationError :=
  { message := message, kindName := node.kindName }

/-- `EvaluationResult = Result<EnumLiteral, EvaluationError>`. -/
abbrev EvaluationResult := Except EvaluationError JsLit

/-- foundation.ts `isLiteralKind`. -/
def isLiteralKind : TsNode → Bool
  | .strLit _ => true
  | .numLit _ => true
  | .tmplLit _ => true
  | .trueKw => true
  | .falseKw => true
  | _ => false

/-- foundation.ts `isCollectionKind`. -/
def isCollectionKind : TsNode → Bool
  | .arrayLit _ => true
  | .objectLit _ => true
  | _ => false

/-- foundation.ts `unwrapNode`: strip `as`-expressions, type assertions
and parentheses. -/
def unwrapNode : TsNode → TsNode
  | .asExpr e _ => unwrapNode e
  | .typeAssertion e => unwrapNode e
  | .paren e => unwrapNode e
  | n => n

/-- foundation.ts `isWrappedNode`. -/
def isWrappedNode : TsNode → Bool
  | .asExpr _ _ => true
  | .typeAssertion _ => true
  | .paren _ => true
  | _ => false

/-- foundation.ts `getArrowFunctionBody`. -/
def getArrowFunctionBody : TsNode → Option TsNode
  | .arrowFn body => some (unwrapNode body)
  | _ => none

/-- foundation.ts `evaluateLiteral`. -/
def evaluateLiteral (node : TsNode) : EvaluationResult :=
  match unwrapNode node with
  | .strLit s => .ok (.str s)
  | .numLit q => .ok (.num q)
  | .tmplLit s => .ok (.str s)
  | .trueKw => .ok (.bool true)
  | .falseKw => .ok (.bool false)
  | unwrapped =>
      .error (createEvaluationError
        ("Expected literal value, got " ++ unwrapped.kindName) unwrapped)

/-- foundation.ts `isLiteralNode`. -/
def isLiteralNode (node : TsNode) : Bool :=
  isLiteralKind (unwrapNode node)

/-- foundation.ts `resolveIdentifier`: the identifier's symbol's variable
declaration's initializer, unwrapped. -/
def resolveIdentifier (checker : Checker) (name : String) : Option TsNode :=
  (alistFind checker.varInit name).map unwrapNode

/-- foundation.ts `resolveIdentifierNode`. -/
def resolveIdentifierNode (node : TsNode) (checker : Checker) : TsNode :=
  match node with
  | .ident name =>
      match resolveIdentifier checker name with
      | some resolved => resolved
      | none => node
  | _ => node

/-- foundation.ts `resolveIdentifierWithFallback`: symbol resolution
first, then the declaring file's variable-declaration table; `none` for
any non-identifier node. -/
def resolveIdentifierWithFallback (node : TsNode) (checker : Checker) : Option TsNode :=
  match node with
  | .ident name =>
      match resolveIdentifier checker name with
      | some resolved => some resolved
      | none => (alistFind checker.fileVarInit name).map unwrapNode
  | _ => none

/-- foundation.ts `EXTERNAL_ENUMS`. -/
def EXTERNAL_ENUMS : List (String × List (String × Nat)) :=
  [("ActivityType",
    [("PLAYING", 0), ("STREAMING", 1), ("LISTENING", 2), ("WATCHING", 3),
     ("CUSTOM", 4), ("COMPETING", 5)]),
   ("StatusType", [("ONLINE", 0), ("IDLE", 1), ("DND", 2), ("INVISIBLE", 3)]),
   ("ChannelType", [("GUILD_TEXT", 0), ("DM", 1), ("GUILD_VOICE", 2)])]

/-- foundation.ts `getExternalEnumValue`. -/
def getExternalEnumValue (enumName member : String) : Option Nat :=
  (alistFind EXTERNAL_ENUMS enumName).bind fun members => alistFind members member

/-- `obj.getProperty(name)`: first member whose name matches. -/
def ObjProp.name : ObjProp → Option String
  | .assign n _ => some n
  | .getAccessor n => some n
  | .methodDecl n => some n
  | .otherMember => none

def getProperty (props : List ObjProp) (name : String) : Option ObjProp :=
  props.find? fun p => p.name == some name

def getObjectProps : TsNode → List ObjProp
  | .objectLit props => props
  | _ => []

/-! ### JavaScript arithmetic on the rational model -/

/-- Truncation toward zero (`ToIntegerOrInfinity`). -/
def truncRat (q : Rat) : Int :=
  if q ≥ 0 then q.floor else q.ceil

/-- `ToUint32`: truncate, then reduce mod `2^32` into `[0, 2^32)`. -/
def toUint32 (q : Rat) : Nat :=
  (truncRat q % (2 ^ 32 : Int)).toNat

/-- Reinterpret a 32-bit unsigned value as two's-complement signed. -/
def fromUint32Signed (n : Nat) : Int :=
  if n ≥ 2 ^ 31 then (n : Int) - 2 ^ 32 else (n : Int)

/-- `ToInt32`. -/
def toInt32 (q : Rat) : Int :=
  fromUint32Signed (toUint32 q)

/-- 32-bit bitwise operation with JavaScript's int32 conversion. -/
def jsBitwise (f : Nat → Nat → Nat) (l r : Rat) : Rat :=
  ((fromUint32Signed ((f (toUint32 l) (toUint32 r)) % 2 ^ 32) : Int) : Rat)

def jsShl (l r : Rat) : Rat :=
  ((fromUint32Signed ((toUint32 l <<< (toUint32 r % 32)) % 2 ^ 32) : Int) : Rat)

def jsShr (l r : Rat) : Rat :=
  ((Int.fdiv (toInt32 l) (2 ^ (toUint32 r % 32)) : Int) : Rat)

def jsUshr (l r : Rat) : Rat :=
  (((toUint32 l >>> (toUint32 r % 32) : Nat) : Int) : Rat)

/-- JavaScript `/`.  Division by zero yields Infinity/NaN in JS, which the
rational model cannot represent (it yields `0`); no theorem depends on
the numeric value of a division. -/
def jsDiv (l r : Rat) : Rat := l / r

/-- JavaScript `%` (remainder with the sign of the dividend).  `r = 0`
yields NaN in JS; the model yields `0`; no theorem depends on it. -/
def jsMod (l r : Rat) : Rat :=
  if r = 0 then 0 else l - r * ((truncRat (l / r) : Int) : Rat)

/-- foundation.ts `BINARY_OPERATORS`: the supported operator table. -/
def BINARY_OPERATORS : BinOp → Option (Rat → Rat → Rat)
  | .bar => some (jsBitwise (· ||| ·))
  | .amp => some (jsBitwise (· &&& ·))
  | .caret => some (jsBitwise (· ^^^ ·))
  | .shl => some jsShl
  | .shr => some jsShr
  | .ushr => some jsUshr
  | .plus => some (· + ·)
  | .minus => some (· - ·)
  | .mul => some (· * ·)
  | .div => some jsDiv
  | .mod => some jsMod
  | _ => none

/-- Operator token text, for error messages. -/
def BinOp.text : BinOp → String
  | .bar => "|"
  | .amp => "&"
  | .caret => "^"
  | .shl => "<<"
  | .shr => ">>"
  | .ushr => ">>>"
  | .plus => "+"
  | .minus => "-"
  | .mul => "*"
  | .div => "/"
  | .mod => "%"
  | .eqEqEq => "==="
  | .other t => t

/-- foundation.ts `isSupportedBinaryExpression`. -/
def isSupportedBinaryExpression : TsNode → Bool
  | .binary _ op _ => (BINARY_OPERATORS op).isSome
  | _ => false

/-! ### The expression evaluator -/

/-- foundation.ts `evaluatePropertyAccess`, over the modelled symbol
table.  Resolution order, as in the source: enum-member symbol of the
access; base-identifier declaration's object-literal property (with the
lexical fallback when the symbol has no initializer); the
`EXTERNAL_ENUMS` table; otherwise an error. -/
def evaluatePropertyAccess (checker : Checker)
    (evaluateValue : TsNode → EvaluationResult) (node : TsNode) : EvaluationResult :=
  match node with
  | .propAccess baseExpr propName =>
      let enumStep : Option EvaluationResult :=
        match alistFind2 checker.enumMemberOf baseExpr.getText propName with
        | some decl =>
            match decl.getValue with
            | some (.num q) => some (.ok (.num q))
            | some (.str s) => some (.ok (.str s))
            | _ =>
                match decl.init with
                | some i => some (evaluateValue i)
                | none => none
        | none => none
      match enumStep with
      | some r => r
      | none =>
          let objStep : Option EvaluationResult :=
            match baseExpr with
            | .ident baseName =>
                let lookupIn (init0 : Option TsNode) : Option EvaluationResult :=
                  let baseInit :=
                    match init0 with
                    | some (.asExpr e _) => some e
                    | o => o
                  match baseInit with
                  | some (.objectLit props) =>
                      match getProperty props propName with
                      | some (.assign _ init) => some (evaluateValue init)
                      | _ => none
                  | _ => none
                match alistFind checker.varInit baseName with
                | some i => lookupIn (some i)
                | none => lookupIn (alistFind checker.fileVarInit baseName)
            | _ => none
          match objStep with
          | some r => r
          | none =>
              match getExternalEnumValue baseExpr.getText propName with
              | some v => .ok (.num (v : Nat))
              | none =>
                  .error (createEvaluationError
                    ("Cannot resolve property access: " ++ baseExpr.getText ++ "." ++ propName)
                    node)
  | _ =>
      .error (createEvaluationError
        ("Expected PropertyAccessExpression, got " ++ node.kindName) node)

/-- foundation.ts `evaluateBinaryExpression`. -/
def evaluateBinaryExpression (_checker : Checker)
    (evaluateOperand : TsNode → EvaluationResult) (node : TsNode) : EvaluationResult :=
  match node with
  | .binary lhs op rhs =>
      match evaluateOperand lhs with
      | .error e => .error e
      | .ok left =>
          match evaluateOperand rhs with
          | .error e => .error e
          | .ok right =>
              match left, right with
              | .num l, .num r =>
                  match BINARY_OPERATORS op with
                  | some f => .ok (.num (f l r))
                  | none =>
                      .error (createEvaluationError
                        ("Unsupported binary operator: " ++ op.text) node)
              | _, _ =>
                  .error (createEvaluationError
                    "Binary expression operands must be numbers" node)
  | _ =>
      .error (createEvaluationError
        ("Expected BinaryExpression, got " ++ node.kindName) node)

/-- foundation.ts `evaluate`.  `fuel` bounds the resolution-driven
recursion (cyclic declarations make the original diverge); every branch
mirrors the source: literal forms; the wrapper branch (which calls
`resolveIdentifierWithFallback` on the wrapper node itself); identifier
resolution; property access; supported binary expressions; the terminal
error. -/
def evaluate : Nat → Checker → TsNode → EvaluationResult
  | 0, _, node =>
      .error (createEvaluationError "Evaluation recursion limit exceeded" node)
  | fuel + 1, checker, node =>
      if isLiteralNode node then evaluateLiteral node
      else
        match node with
        | .asExpr _ _ | .typeAssertion _ | .paren _ =>
            match resolveIdentifierWithFallback node checker with
            | some unwrapped => evaluate fuel checker unwrapped
            | none =>
                .error (createEvaluationError ("Cannot unwrap node: " ++ node.getText) node)
        | .ident _ =>
            match resolveIdentifierWithFallback node checker with
            | some resolved =>
                if !TsNode.beq resolved node then evaluate fuel checker resolved
                else
                  .error (createEvaluationError
                    ("Cannot resolve identifier: " ++ node.getText) node)
            | none =>
                .error (createEvaluationError
                  ("Cannot resolve identifier: " ++ node.getText) node)
        | .propAccess _ _ =>
            evaluatePropertyAccess checker (evaluate fuel checker) node
        | n =>
            if isSupportedBinaryExpression n then
              evaluateBinaryExpression checker (evaluate fuel checker) n
            else
              .error (createEvaluationError
                ("Cannot evaluate node of type " ++ n.kindName) n)
termination_by structural fuel => fuel

/-- foundation.ts `tryEvaluate`. -/
def tryEvaluate (fuel : Nat) (checker : Checker) (node : TsNode) : Option JsLit :=
  match evaluate fuel checker node with
  | .ok v => some v
  | .error _ => none

/-! ### Node helpers (`utils/node-helpers.ts`)

Modelled from the spec: `utils/node-helpers.ts` is not part of the
provided sources; its accessors are reconstructed from their call sites
and from the spec's description of leaf extraction (§4.6): property
lookup by name over an object literal, restricted to property
assignments, plus literal-value accessors. -/

/-- `getPropertyAssignment(obj, name)`: the named member, provided it is
a property assignment; yields its initializer (ts-morph property
assignments always carry one). -/
def getPropertyAssignment (props : List ObjProp) (name : String) : Option TsNode :=
  match getProperty props name with
  | some (.assign _ init) => some init
  | _ => none

/-- `getPropertyInitializer(obj, name)`. -/
def getPropertyInitializer (props : List ObjProp) (name : String) : Option TsNode :=
  getPropertyAssignment props name

/-- `iteratePropertyAssignments(obj)`: the property assignments of an
object literal, in declaration order. -/
def iteratePropertyAssignments (props : List ObjProp) : List (String × TsNode) :=
  props.filterMap fun p =>
    match p with
    | .assign n init => some (n, init)
    | _ => none

/-- `extractStringLiteralValue(obj, name)`. -/
def extractStringLiteralValue (props : List ObjProp) (name : String) : Option String :=
  match getPropertyInitializer props name with
  | some (.strLit s) => some s
  | _ => none

/-- `extractBooleanLiteralValue(obj, name)`. -/
def extractBooleanLiteralValue (props : List ObjProp) (name : String) : Option Bool :=
  match getPropertyInitializer props name with
  | some .trueKw => some true
  | some .falseKw => some false
  | _ => none

/-- `isMethodCall(call, name)`: the callee is a property access whose
member name matches. -/
def isMethodCall (callee : TsNode) (name : String) : Bool :=
  match callee with
  | .propAccess _ n => n == name
  | _ => false

/-! ### Constants (`extractor/constants.ts`, `shared/types.ts`)

Modelled from the spec: `constants.ts` and `shared/types.ts` are not
part of the provided sources.  The option-type tokens, target-type
strings and the `OptionTypeMap` numbering follow the spec's glossary of
target types and the Vencord `OptionType` enumeration the spec's
annotation tokens refer to; `'types.enum'` is confirmed by its literal
occurrence in `type-inference/index.ts`. -/

def NIX_ENUM_TYPE : String := "types.enum"
def NIX_TYPE_BOOL : String := "types.bool"
def NIX_TYPE_STR : String := "types.str"
def NIX_TYPE_INT : String := "types.int"
def NIX_TYPE_FLOAT : String := "types.float"
def NIX_TYPE_ATTRS : String := "types.attrs"
def NIX_TYPE_NULL_OR_STR : String := "types.nullOr types.str"
def NIX_TYPE_LIST_OF_STR : String := "types.listOf types.str"
def NIX_TYPE_LIST_OF_ATTRS : String := "types.listOf types.attrs"

def OPTION_TYPE_BOOLEAN : String := "BOOLEAN"
def OPTION_TYPE_STRING : String := "STRING"
def OPTION_TYPE_NUMBER : String := "NUMBER"
def OPTION_TYPE_BIGINT : String := "BIGINT"
def OPTION_TYPE_SELECT : String := "SELECT"
def OPTION_TYPE_SLIDER : String := "SLIDER"
def OPTION_TYPE_COMPONENT : String := "COMPONENT"
def OPTION_TYPE_CUSTOM : String := "CUSTOM"

def TS_TYPE_STRING : String := "string"
def TS_TYPE_NUMBER : String := "number"
def TS_TYPE_BOOLEAN : String := "boolean"
def TS_ARRAY_BRACKET_PATTERN : String := "[]"
def TS_ARRAY_GENERIC_PATTERN : String := "Array<"

def BOOLEAN_ENUM_LENGTH : Nat := 2
def DEFAULT_PROPERTY : String := "default"
def COMPONENT_PROPERTY : String := "component"
def VALUE_PROPERTY : String := "value"
def LABEL_PROPERTY : String := "label"
def OPTIONS_PROPERTY : String := "options"
def NAME_PROPERTY : String := "name"
def DESCRIPTION_PROPERTY : String := "description"
def GET_FUNCTION_NAME : String := "get"

/-- `OptionTypeMap` (shared/types.ts): numeric `OptionType` tags to their
token names. -/
def OptionTypeMap : Nat → Option String
  | 0 => some OPTION_TYPE_STRING
  | 1 => some OPTION_TYPE_NUMBER
  | 2 => some OPTION_TYPE_BIGINT
  | 3 => some OPTION_TYPE_BOOLEAN
  | 4 => some OPTION_TYPE_SELECT
  | 5 => some OPTION_TYPE_SLIDER
  | 6 => some OPTION_TYPE_COMPONENT
  | 7 => some OPTION_TYPE_CUSTOM
  | _ => none

/-- `STRING_ARRAY_TYPE_PATTERN.test(typeText)` (constants.ts, modelled
from the spec's "array of strings" annotation): the annotation text
denotes a string-array type. -/
def stringArrayTypeTest (typeText : String) : Bool :=
  strIncludes typeText "string[]" || strIncludes typeText "Array<string>"

/-- `/\[\]$/.test(t)`. -/
def arrayBracketTest (typeText : String) : Bool :=
  strEndsWith typeText "[]"

/-- `/\bArray<.+>\b/.test(t)` (approximated as containment of the
generic-array head; every annotation the extractor meets is of the
simple `Array<T>` form). -/
def arrayGenericTest (typeText : String) : Bool :=
  strIncludes typeText "Array<"

/-! ### shared/type-guards.ts -/

def isString : JsVal → Bool
  | .str _ => true
  | _ => false

def isNumber : JsVal → Bool
  | .num _ => true
  | _ => false

def isBoolean : JsVal → Bool
  | .bool _ => true
  | _ => false

def isArrayVal : JsVal → Bool
  | .arr _ => true
  | _ => false

/-- `isObject`: non-null, non-array `object`. -/
def isObject : JsVal → Bool
  | .obj _ => true
  | _ => false

/-- `typeof x === 'object'` is also true of `null` in JavaScript; the
pattern matches in `inferNixTypeFromRuntimeDefault` use `isObject`,
which excludes `null`. -/
def jsIsNullish : JsVal → Bool
  | .undef => true
  | .null => true
  | _ => false

def JsVal.toLit : JsVal → Option JsLit
  | .str s => some (.str s)
  | .num q => some (.num q)
  | .bool b => some (.bool b)
  | _ => none

/-! ### type-helpers.ts -/

/-- type-helpers.ts `isBooleanEnumValues`: exactly two pairwise-distinct
boolean values (`new Set` modelled by `dedup`). -/
def isBooleanEnumValues (values : List JsLit) : Bool :=
  values.length == BOOLEAN_ENUM_LENGTH &&
  values.dedup.length == BOOLEAN_ENUM_LENGTH &&
  values.all fun v => match v with | .bool _ => true | _ => false

/-- type-helpers.ts `checkPropertyAccessCustom`. -/
def checkPropertyAccessCustom : TsNode → Bool
  | .propAccess _ name => name == OPTION_TYPE_CUSTOM
  | _ => false

/-- type-helpers.ts `isCustomTypeInNode`. -/
def isCustomTypeInNode (node : TsNode) : Bool :=
  checkPropertyAccessCustom node || strIncludes node.getText OPTION_TYPE_CUSTOM

/-- type-helpers.ts `getDefaultPropertyInitializer`. -/
def getDefaultPropertyInitializer (props : List ObjProp) : Option TsNode :=
  getPropertyInitializer props DEFAULT_PROPERTY

/-- The `SettingProperties` record gathered per leaf setting
(type-inference/types.ts and the settings extractor's
`extractProperties`). -/
structure SettingProperties where
  typeNode : Option TsNode
  description : Option String
  placeholder : Option String
  restartNeeded : Bool
  hidden : Bool
  defaultLiteralValue : JsVal

/-- type-helpers.ts `isCustomType`. -/
def isCustomType (valueObjProps : List ObjProp) (props : SettingProperties) : Bool :=
  let fromTypeProp :=
    match getProperty valueObjProps "type" with
    | some (.assign _ typeInit) => isCustomTypeInNode typeInit
    | _ => false
  if fromTypeProp then true
  else
    match props.typeNode with
    | some t => isCustomTypeInNode t
    | none => false

/-! ### The type classifier (`tsTypeToNixType` and helpers, parser.ts) -/

/-- parser.ts `inferNixTypeFromRuntimeDefault` (ts-pattern match, in
source order; `null` falls through `isObject` to the terminal case). -/
def inferNixTypeFromRuntimeDefault : JsVal → String
  | .undef => NIX_TYPE_STR
  | .bool _ => NIX_TYPE_BOOL
  | .arr _ => NIX_TYPE_ATTRS
  | .str _ => NIX_TYPE_STR
  | .num q => if q.den == 1 then NIX_TYPE_INT else NIX_TYPE_FLOAT
  | .obj _ => NIX_TYPE_ATTRS
  | .null => NIX_TYPE_STR

/-- parser.ts `extractEnumValueFromDeclaration`: `getValue()` when it is
a number, else a numeric-literal initializer through `parseInt` (which
truncates at the decimal point). -/
def extractEnumValueFromDeclaration (decl : EnumMemberDecl) : Option Rat :=
  match decl.getValue with
  | some (.num q) => some q
  | _ =>
      match decl.init with
      | some (.numLit q) => some ((truncRat q : Int) : Rat)
      | _ => none

/-- `OptionTypeMap[val]` for a runtime numeric index. -/
def optionTypeMapAt (q : Rat) : Option String :=
  if q.den == 1 && 0 ≤ q.num then OptionTypeMap q.num.toNat else none

/-- The intermediate `string | number` (possibly `undefined`) value of
`extractTypeValue` inside `resolveOptionTypeNameFromNode`. -/
inductive TypeVal where
  | vstr (s : String)
  | vnum (q : Rat)
  | vundef

/-- parser.ts `resolveOptionTypeNameFromNode`. -/
def resolveOptionTypeNameFromNode (typeNode : TsNode) (checker : Checker) : Option String :=
  let extractTypeValue : Option TypeVal :=
    match typeNode with
    | .propAccess base propName =>
        match alistFind2 checker.enumMemberOf base.getText propName with
        | some decl =>
            match extractEnumValueFromDeclaration decl with
            | some v =>
                some (match optionTypeMapAt v with
                      | some s => .vstr s
                      | none => .vundef)
            | none => some (.vstr propName)
        | none => some (.vstr propName)
    | .ident name =>
        match alistFind checker.identEnumMember name with
        | some decl =>
            match extractEnumValueFromDeclaration decl with
            | some v =>
                some (match optionTypeMapAt v with
                      | some s => .vstr s
                      | none => .vundef)
            | none => none
        | none => none
    | .numLit q =>
        some (match optionTypeMapAt ((truncRat q : Int) : Rat) with
              | some s => .vstr s
              | none => .vundef)
    | _ => none
  match extractTypeValue with
  | some (.vstr s) => some s
  | some (.vnum q) => optionTypeMapAt q
  | some .vundef => none
  | none => none

/-- One element of `options` satisfies the zod
`z.object(... value optional ...)` element schema. -/
def isSchemaOptionObj : JsVal → Bool
  | .obj fields =>
      match alistFind fields VALUE_PROPERTY with
      | some .undef => true
      | some fv => fv.toLit.isSome
      | none => true
  | _ => false

/-- parser.ts `buildEnumValuesFromOptions`.  The source's return type
admits `undefined` but every path returns an array, so the model returns
a plain list. -/
def buildEnumValuesFromOptions : JsVal → List JsLit
  | .arr xs =>
      let validOptions := xs.filterMap JsVal.toLit
      if validOptions.length > 0 then validOptions
      else if xs.all isSchemaOptionObj then
        xs.filterMap fun o =>
          match o with
          | .obj fields => (alistFind fields VALUE_PROPERTY).bind JsVal.toLit
          | _ => none
      else []
  | _ => []

/-- parser.ts `nixTypeForComponentOrCustom`. -/
def nixTypeForComponentOrCustom : JsVal → String
  | .undef => NIX_TYPE_ATTRS
  | .arr _ => NIX_TYPE_STR
  | v => inferNixTypeFromRuntimeDefault v

/-- parser.ts `inferTypeFromTypeScriptType`, over the `typeAt` oracle
(exceptions and a missing type are `none`). -/
def inferTypeFromTypeScriptType (typeNode : TsNode) (checker : Checker)
    (defaultValue : JsVal) : Option String :=
  match checker.typeAt typeNode with
  | none => none
  | some info =>
      let typeName := info.typeName
      let checkString := typeName == TS_TYPE_STRING || strIncludes typeName TS_TYPE_STRING
      let checkNumber := typeName == TS_TYPE_NUMBER || strIncludes typeName TS_TYPE_NUMBER
      let checkBoolean := typeName == TS_TYPE_BOOLEAN || strIncludes typeName TS_TYPE_BOOLEAN
      let checkArray :=
        strIncludes typeName TS_ARRAY_BRACKET_PATTERN ||
        strIncludes typeName TS_ARRAY_GENERIC_PATTERN
      if checkString then some NIX_TYPE_STR
      else if checkNumber then
        some (match defaultValue with
              | .num q => if q.den == 1 then NIX_TYPE_INT else NIX_TYPE_FLOAT
              | _ => NIX_TYPE_INT)
      else if checkBoolean then some NIX_TYPE_BOOL
      else if checkArray then some NIX_TYPE_ATTRS
      else
        match info.unionTexts with
        | [] => none
        | ts =>
            let allStrings := ts.all fun n => n == TS_TYPE_STRING || strIncludes n TS_TYPE_STRING
            let allNumbers := ts.all fun n => n == TS_TYPE_NUMBER || strIncludes n TS_TYPE_NUMBER
            let allBooleans :=
              ts.all fun n => n == TS_TYPE_BOOLEAN || strIncludes n TS_TYPE_BOOLEAN
            if allStrings then some NIX_TYPE_STR
            else if allNumbers then some NIX_TYPE_INT
            else if allBooleans then some NIX_TYPE_BOOL
            else none

/-- The `type` field of a raw setting as `tsTypeToNixType` receives it:
an AST node, a plain numeric tag, or absent. -/
inductive RawType where
  | node (n : TsNode)
  | numTag (q : Rat)
  | absent

/-- The raw setting record passed to `tsTypeToNixType`. -/
structure RawSetting where
  type : RawType
  default : JsVal
  options : JsVal

/-- The classifier result `{ nixType, enumValues? }`. -/
structure NixTypeResult where
  nixType : String
  enumValues : Option (List JsLit) := none

/-- parser.ts `tsTypeToNixType`: the top-level classifier decision
table. -/
def tsTypeToNixType (setting : RawSetting) (checker : Checker) : NixTypeResult :=
  match setting.type with
  | .node typeNode =>
      match resolveOptionTypeNameFromNode typeNode checker with
      | some typeName =>
          if typeName == OPTION_TYPE_BOOLEAN then { nixType := NIX_TYPE_BOOL }
          else if typeName == OPTION_TYPE_STRING then { nixType := NIX_TYPE_STR }
          else if typeName == OPTION_TYPE_NUMBER then
            { nixType :=
                match setting.default with
                | .num q => if q.den == 1 then NIX_TYPE_INT else NIX_TYPE_FLOAT
                | _ => NIX_TYPE_FLOAT }
          else if typeName == OPTION_TYPE_BIGINT then { nixType := NIX_TYPE_INT }
          else if typeName == OPTION_TYPE_SELECT then
            let enumValues := buildEnumValuesFromOptions setting.options
            if isBooleanEnumValues enumValues then { nixType := NIX_TYPE_BOOL }
            else if enumValues.length == 0 then { nixType := NIX_TYPE_STR }
            else { nixType := NIX_ENUM_TYPE, enumValues := some enumValues }
          else if typeName == OPTION_TYPE_SLIDER then { nixType := NIX_TYPE_FLOAT }
          else if typeName == OPTION_TYPE_COMPONENT then
            { nixType := nixTypeForComponentOrCustom setting.default }
          else if typeName == OPTION_TYPE_CUSTOM then
            { nixType := nixTypeForComponentOrCustom setting.default }
          else { nixType := inferNixTypeFromRuntimeDefault setting.default }
      | none =>
          let inferredType := inferTypeFromTypeScriptType typeNode checker setting.default
          let enumValues := buildEnumValuesFromOptions setting.options
          match inferredType with
          | some t => { nixType := t, enumValues := some enumValues }
          | none =>
              { nixType := inferNixTypeFromRuntimeDefault setting.default,
                enumValues := some enumValues }
  | t =>
      let tagHandled : Option NixTypeResult :=
        match t with
        | .numTag q =>
            match optionTypeMapAt q with
            | some typeValue =>
                if typeValue == OPTION_TYPE_COMPONENT || typeValue == OPTION_TYPE_CUSTOM then
                  some { nixType := nixTypeForComponentOrCustom setting.default }
                else none
            | none => none
        | _ => none
      match tagHandled with
      | some r => r
      | none =>
          let enumValues := buildEnumValuesFromOptions setting.options
          if !enumValues.isEmpty then
            if isBooleanEnumValues enumValues then { nixType := NIX_TYPE_BOOL }
            else { nixType := NIX_ENUM_TYPE, enumValues := some enumValues }
          else { nixType := inferNixTypeFromRuntimeDefault setting.default }

/-! ### SELECT options extraction (`select/options/*`) -/

/-- Extraction error kinds (`extractor/types.ts`; the file itself is not
among the provided sources, but every kind is named at its use sites). -/
inductive ExtractionErrorKind where
  | UnsupportedPattern
  | InvalidNodeType
  | UnresolvableSymbol
  | CannotEvaluate
  | MissingProperty
deriving DecidableEq, Repr

structure ExtractionError where
  kind : ExtractionErrorKind
  message : String
deriving DecidableEq, Repr

def createExtractionError (kind : ExtractionErrorKind) (message : String)
    (_node : TsNode) : ExtractionError :=
  { kind := kind, message := message }

/-- The successful payload of options extraction. -/
structure SelectOptions where
  values : List JsLit
  labels : List (String × String)
deriving Repr

abbrev SelectOptionsResult := Except ExtractionError SelectOptions

/-- `createSelectOptionsResult(values, labels?)`. -/
def createSelectOptionsResult (values : List JsLit)
    (labels : List (String × String) := []) : SelectOptionsResult :=
  .ok { values := values, labels := labels }

/-- `String(value)` as used to key the labels record.  Exact for the
string and boolean cases; non-integral numbers render in rational form
(no claim depends on label keys). -/
def jsLitToString : JsLit → String
  | .str s => s
  | .bool true => "true"
  | .bool false => "false"
  | .num q => if q.den == 1 then toString q.num else toString q

/-- JavaScript object property assignment `labels[k] = v` on the
modelled `Record<string, string>`. -/
def recordSet (m : List (String × String)) (k v : String) : List (String × String) :=
  if (alistFind m k).isSome then
    m.map fun kv => if kv.1 == k then (k, v) else kv
  else m ++ [(k, v)]

/-- `Object.assign(labels, more)`. -/
def recordAssign (m more : List (String × String)) : List (String × String) :=
  more.foldl (fun acc kv => recordSet acc kv.1 kv.2) m

/-- The `{ value, label? }` pair of `extractValueAndLabel`. -/
structure ValueLabel where
  value : JsLit
  label : Option String

/-- array-patterns.ts `addValueAndLabel` (the push/assign step, as a
pure state transformer). -/
def addValueAndLabel (values : List JsLit) (labels : List (String × String))
    (valueResult : Except EvaluationError ValueLabel) :
    List JsLit × List (String × String) :=
  match valueResult with
  | .ok vl =>
      (values ++ [vl.value],
       match vl.label with
       | some l => recordSet labels (jsLitToString vl.value) l
       | none => labels)
  | .error _ => (values, labels)

/-- array-patterns.ts `extractValueAndLabel`: evaluate the `value`
property of an option object; a `label` is kept only when it is a
non-empty string literal (the empty string is falsy in the source's
`label ? ... : ...`). -/
def extractValueAndLabel (fuel : Nat) (checker : Checker) (props : List ObjProp) :
    Except EvaluationError ValueLabel :=
  match getPropertyAssignment props VALUE_PROPERTY with
  | none =>
      .error (createEvaluationError "Missing value property in option object"
        (.objectLit props))
  | some valueInit =>
      match evaluate fuel checker valueInit with
      | .error e => .error e
      | .ok v =>
          let label :=
            match getPropertyAssignment props LABEL_PROPERTY with
            | some (.strLit s) => if s == "" then none else some s
            | _ => none
          .ok { value := v, label := label }

/-- array-patterns.ts `extractFromSpreadElement`, applied to the spread's
inner expression: resolve an identifier to an array literal and collect
its object-literal elements. -/
def extractFromSpreadElement (fuel : Nat) (checker : Checker) (sExpr : TsNode) :
    Except EvaluationError SelectOptions :=
  match sExpr with
  | .ident name =>
      match alistFind checker.varInit name with
      | none =>
          .error (createEvaluationError ("Cannot resolve spread element: " ++ name) sExpr)
      | some init =>
          match init with
          | .arrayLit elems =>
              let step := elems.foldl
                (fun (acc : List JsLit × List (String × String)) el =>
                  match el with
                  | .objectLit ps =>
                      addValueAndLabel acc.1 acc.2 (extractValueAndLabel fuel checker ps)
                  | _ => acc)
                ([], [])
              .ok { values := step.1, labels := step.2 }
          | _ =>
              .error (createEvaluationError
                "Spread element does not resolve to an array literal" sExpr)
  | _ => .error (createEvaluationError "Spread element must be an identifier" sExpr)

/-- array-patterns.ts `extractOptionsFromArrayMap`: evaluate every
element of a literal array; error only when there was at least one
failure and no successes. -/
def extractOptionsFromArrayMap (fuel : Nat) (checker : Checker) (arr : TsNode) :
    SelectOptionsResult :=
  match arr with
  | .arrayLit elems =>
      let results := elems.map (evaluate fuel checker)
      let values := results.filterMap fun r =>
        match r with | .ok v => some v | .error _ => none
      let errors := results.filterMap fun r =>
        match r with | .ok _ => none | .error e => some e.message
      if errors.length > 0 && values.length == 0 then
        .error (createExtractionError .CannotEvaluate
          ("Failed to extract options: " ++ String.intercalate "; " errors) arr)
      else createSelectOptionsResult values
  | _ => .error (createExtractionError .InvalidNodeType "Expected ArrayLiteralExpression" arr)

/-- patterns/index.ts `isArrayFromCall`. -/
def isArrayFromCall : TsNode → Bool
  | .callExpr (.propAccess (.ident base) name) _ => base == "Array" && name == "from"
  | _ => false

/-- array-patterns.ts `extractOptionsFromArrayFrom`. -/
def extractOptionsFromArrayFrom (fuel : Nat) (checker : Checker) (call : TsNode) :
    SelectOptionsResult :=
  if !isArrayFromCall call then
    .error (createExtractionError .UnsupportedPattern "Expected Array.from() pattern" call)
  else
    match call with
    | .callExpr _ args =>
        match args.head? with
        | none =>
            .error (createExtractionError .MissingProperty
              "Array.from() requires at least one argument" call)
        | some firstArg =>
            match firstArg with
            | .arrayLit _ => extractOptionsFromArrayMap fuel checker firstArg
            | .ident name =>
                match resolveIdentifier checker name with
                | some (.arrayLit elems) =>
                    extractOptionsFromArrayMap fuel checker (.arrayLit elems)
                | _ =>
                    .error (createExtractionError .UnsupportedPattern
                      "Array.from() pattern not supported for this argument type" call)
            | _ =>
                .error (createExtractionError .UnsupportedPattern
                  "Array.from() pattern not supported for this argument type" call)
    | _ =>
        .error (createExtractionError .UnsupportedPattern
          "Array.from() pattern not supported for this argument type" call)

/-- array-patterns.ts `extractOptionsFromObjectArray`: walk the elements
of the literal `options` array, collecting evaluable object elements and
resolvable spreads, silently skipping everything else; error exactly
when the array is non-empty and nothing was collected. -/
def extractOptionsFromObjectArray (fuel : Nat) (checker : Checker)
    (elems : List TsNode) : SelectOptionsResult :=
  let hasElements := elems.length > 0
  let hasMissingValueProp := elems.any fun el =>
    match el with
    | .objectLit ps => (getPropertyAssignment ps VALUE_PROPERTY).isNone
    | _ => false
  let step := elems.foldl
    (fun (acc : List JsLit × List (String × String)) el =>
      match el with
      | .objectLit ps => addValueAndLabel acc.1 acc.2 (extractValueAndLabel fuel checker ps)
      | .spreadElem e =>
          match extractFromSpreadElement fuel checker e with
          | .ok r => (acc.1 ++ r.values, recordAssign acc.2 r.labels)
          | .error _ => acc
      | _ => acc)
    ([], [])
  if step.1.length == 0 && hasElements then
    .error (createExtractionError .CannotEvaluate
      (if hasMissingValueProp then "Missing value property" else "No evaluable elements in array")
      (.arrayLit elems))
  else createSelectOptionsResult step.1 step.2

/-- node-utils.ts `resolveIdentifierInitializerNode`. -/
def resolveIdentifierInitializerNode (node : TsNode) (checker : Checker) : Option TsNode :=
  match node with
  | .ident name => resolveIdentifier checker name
  | _ => none

/-- node-utils.ts `findConstText`: a top-level `const NAME = "..."` of the
source file. -/
def findConstText (checker : Checker) (constName : String) : Option String :=
  match alistFind checker.fileVarInit constName with
  | some (.strLit s) => some s
  | _ => none

/-- node-utils.ts `resolveThemeUrl` composed over `findConstText`. -/
def resolveThemeUrl (checker : Checker) (themeName : String) : Option String :=
  match findConstText checker "SHIKI_REPO", findConstText checker "SHIKI_REPO_COMMIT" with
  | some repo, some commit =>
      some ("https://raw.githubusercontent.com/" ++ repo ++ "/" ++ commit ++
        "/packages/tm-themes/themes/" ++ themeName ++ ".json")
  | _, _ => none

/-- node-utils.ts `evaluateThemesValues`. -/
def evaluateThemesValues (themesIdent : TsNode) (checker : Checker) : List String :=
  match resolveIdentifierInitializerNode themesIdent checker with
  | some (.objectLit ps) =>
      (iteratePropertyAssignments ps).filterMap fun nv =>
        match nv.2 with
        | .strLit s => some s
        | .callExpr (.ident callee) cargs =>
            if callee == "shikiRepoTheme" then
              match cargs.head? with
              | some (.strLit nm) => resolveThemeUrl checker nm
              | _ => none
            else none
        | _ => none
  | _ => []

/-- object-patterns.ts `extractOptionsFromObjectKeys`. -/
def extractOptionsFromObjectKeys (checker : Checker) (call : TsNode) : SelectOptionsResult :=
  match call with
  | .callExpr callee args =>
      if !isMethodCall callee "keys" then
        .error (createExtractionError .UnsupportedPattern "Expected Object.keys() pattern" call)
      else
        match args.head? with
        | some (.ident name) =>
            let init := resolveIdentifierInitializerNode (.ident name) checker
            let objLiteral : Option TsNode := init.map fun n =>
              match n with
              | .asExpr e _ => unwrapNode e
              | o => o
            match objLiteral with
            | some (.objectLit ps) =>
                .ok { values := (iteratePropertyAssignments ps).map (fun p => .str p.1),
                      labels := [] }
            | _ =>
                .error (createExtractionError .UnresolvableSymbol
                  ("Cannot resolve identifier " ++ name ++ " to object literal") call)
        | _ =>
            .error (createExtractionError .UnresolvableSymbol
              "Object.keys() argument must be an identifier" call)
  | _ =>
      .error (createExtractionError .InvalidNodeType
        "Expected CallExpression for Object.keys()" call)

/-- object-patterns.ts `extractOptionsFromObjectValues`. -/
def extractOptionsFromObjectValues (fuel : Nat) (checker : Checker) (call : TsNode) :
    SelectOptionsResult :=
  match call with
  | .callExpr callee args =>
      if !isMethodCall callee "values" then
        .error (createExtractionError .UnsupportedPattern "Expected Object.values() pattern" call)
      else
        match args.head? with
        | some (.ident name) =>
            let init := resolveIdentifierInitializerNode (.ident name) checker
            let objLiteral : Option TsNode := init.map fun n =>
              match n with
              | .asExpr e _ => unwrapNode e
              | o => o
            match objLiteral with
            | some (.objectLit ps) =>
                let values := (iteratePropertyAssignments ps).filterMap fun nv =>
                  match evaluate fuel checker nv.2 with
                  | .ok v => some v
                  | .error _ => none
                .ok { values := values, labels := [] }
            | _ =>
                .error (createExtractionError .UnresolvableSymbol
                  ("Cannot resolve identifier " ++ name ++ " to object literal") call)
        | _ =>
            .error (createExtractionError .UnresolvableSymbol
              "Object.values() argument must be an identifier" call)
  | _ =>
      .error (createExtractionError .InvalidNodeType
        "Expected CallExpression for Object.values()" call)

/-- node-helpers `getPropertyName`. -/
def getPropertyName (p : String × TsNode) : Option String := some p.1

/-- theme-patterns.ts `extractThemeKeys`. -/
def extractThemeKeys (checker : Checker) (arg0 : TsNode) : SelectOptionsResult :=
  let evaluated := evaluateThemesValues arg0 checker
  if evaluated.length > 0 then
    .ok { values := evaluated.map (.str ·), labels := [] }
  else
    match resolveIdentifierInitializerNode arg0 checker with
    | some (.objectLit ps) =>
        let keys := ((iteratePropertyAssignments ps).filterMap getPropertyName).filter
          fun k => k != ""
        if keys.length > 0 then
          .ok { values := keys.map (.str ·), labels := [] }
        else
          .error (createExtractionError .CannotEvaluate "No theme keys found" arg0)
    | _ =>
        .error (createExtractionError .UnresolvableSymbol "Cannot resolve object literal" arg0)

/-- theme-patterns.ts `extractFromArrowFunctionBody`. -/
def extractFromArrowFunctionBody (checker : Checker) (args : List TsNode) :
    SelectOptionsResult :=
  match args.head? with
  | none =>
      .error (createExtractionError .MissingProperty "Arrow function has no arguments"
        (.arrayLit []))
  | some firstArg =>
      match firstArg with
      | .arrowFn body0 =>
          let body := unwrapNode body0
          match body with
          | .objectLit obj =>
              match getProperty obj VALUE_PROPERTY with
              | some (.assign _ vinit) =>
                  match vinit with
                  | .elemAccess themesExpr _ =>
                      match themesExpr with
                      | .ident _ =>
                          let values := evaluateThemesValues themesExpr checker
                          if values.length > 0 then
                            .ok { values := values.map (.str ·), labels := [] }
                          else
                            .error (createExtractionError .UnsupportedPattern
                              "Theme pattern not recognized" body)
                      | _ =>
                          .error (createExtractionError .UnsupportedPattern
                            "Theme pattern not recognized" body)
                  | _ =>
                      .error (createExtractionError .UnsupportedPattern
                        "Theme pattern not recognized" body)
              | _ =>
                  .error (createExtractionError .UnsupportedPattern
                    "Theme pattern not recognized" body)
          | _ =>
              .error (createExtractionError .UnsupportedPattern
                "Theme pattern not recognized" body)
      | _ =>
          .error (createExtractionError .InvalidNodeType "Expected ArrowFunction" firstArg)

/-- theme-patterns.ts `extractFromObjectKeysCall`. -/
def extractFromObjectKeysCall (checker : Checker) (ic : TsNode) : SelectOptionsResult :=
  match ic with
  | .callExpr callee args =>
      if !isMethodCall callee "keys" then
        .error (createExtractionError .UnsupportedPattern "Expected Object.keys() pattern" ic)
      else
        match args.head? with
        | none => .error (createExtractionError .UnsupportedPattern "Expected arguments" ic)
        | some arg0 =>
            match arg0 with
            | .ident _ => extractThemeKeys checker arg0
            | _ =>
                .error (createExtractionError .UnsupportedPattern
                  "Expected Identifier argument" ic)
  | _ => .error (createExtractionError .UnsupportedPattern "Expected Object.keys() pattern" ic)

/-- theme-patterns.ts `extractFromObjectKeysCallAsExpression`. -/
def extractFromObjectKeysCallAsExpression (checker : Checker) (asInner : TsNode) :
    SelectOptionsResult :=
  let expr := unwrapNode asInner
  match expr with
  | .callExpr _ _ =>
      match extractFromObjectKeysCall checker expr with
      | .ok r => .ok r
      | .error _ =>
          .error (createExtractionError .UnsupportedPattern "Theme pattern not recognized" expr)
  | _ => .error (createExtractionError .UnsupportedPattern "Theme pattern not recognized" expr)

/-- theme-patterns.ts `extractOptionsFromThemePattern`. -/
def extractOptionsFromThemePattern (checker : Checker) (target call : TsNode) :
    SelectOptionsResult :=
  match target with
  | .ident _ =>
      match call with
      | .callExpr _ args =>
          let fromArrow : Option SelectOptions :=
            if args.length > 0 then
              match extractFromArrowFunctionBody checker args with
              | .ok r => some r
              | .error _ => none
            else none
          match fromArrow with
          | some r => .ok r
          | none =>
              match resolveIdentifierInitializerNode target checker with
              | none =>
                  .error (createExtractionError .UnsupportedPattern
                    "Theme pattern not recognized" target)
              | some initNode =>
                  let fromCall : Option SelectOptions :=
                    match initNode with
                    | .callExpr _ _ =>
                        match extractFromObjectKeysCall checker initNode with
                        | .ok r => some r
                        | .error _ => none
                    | _ => none
                  match fromCall with
                  | some r => .ok r
                  | none =>
                      match initNode with
                      | .asExpr inner _ => extractFromObjectKeysCallAsExpression checker inner
                      | _ =>
                          .error (createExtractionError .UnsupportedPattern
                            "Theme pattern not recognized" target)
      | _ => .error (createExtractionError .InvalidNodeType "Expected CallExpression" call)
  | _ =>
      .error (createExtractionError .InvalidNodeType "Expected Identifier for theme pattern" target)

/-- select/options/index.ts `emptyOptions`. -/
def emptyOptions : SelectOptionsResult :=
  .ok { values := [], labels := [] }

/-- select/options/index.ts `extractFromMapCall`: the `.map()` dispatch
over array literals, `Object.keys`/`Object.values` calls and the theme
idiom. -/
def extractFromMapCall (fuel : Nat) (checker : Checker) (methodName : String)
    (target call : TsNode) : SelectOptionsResult :=
  if methodName != "map" then
    .error (createExtractionError .UnsupportedPattern
      ("Expected .map() call, got ." ++ methodName ++ "()") call)
  else
    match extractOptionsFromArrayMap fuel checker target with
    | .ok r => .ok r
    | .error _ =>
        let fromObjectCalls : Option SelectOptions :=
          match target with
          | .callExpr _ _ =>
              match extractOptionsFromObjectKeys checker target with
              | .ok r => some r
              | .error _ =>
                  match extractOptionsFromObjectValues fuel checker target with
                  | .ok r => some r
                  | .error _ => none
          | _ => none
        match fromObjectCalls with
        | some r => .ok r
        | none =>
            match extractOptionsFromThemePattern checker target call with
            | .ok r => .ok r
            | .error _ =>
                .error (createExtractionError .UnsupportedPattern
                  "Unsupported map() pattern" call)

/-- select/options/index.ts `extractFromCallExpression`. -/
def extractFromCallExpression (fuel : Nat) (checker : Checker) (call : TsNode) :
    SelectOptionsResult :=
  match call with
  | .callExpr callee _ =>
      if isArrayFromCall call then extractOptionsFromArrayFrom fuel checker call
      else
        match callee with
        | .propAccess targetExpr methodName =>
            extractFromMapCall fuel checker methodName targetExpr call
        | _ => .error (createExtractionError .UnsupportedPattern "Expected method call" call)
  | _ => .error (createExtractionError .InvalidNodeType "Expected CallExpression" call)

/-- select/options/index.ts `extractSelectOptions`: the unified entry
point.  A missing/non-assignment `options` property, an unrecognized
node kind and a failed call-pattern extraction all collapse to the empty
success. -/
def extractSelectOptions (fuel : Nat) (checker : Checker) (valueObjProps : List ObjProp) :
    SelectOptionsResult :=
  match getProperty valueObjProps OPTIONS_PROPERTY with
  | some (.assign _ initializer) =>
      let initUnwrapped := unwrapNode initializer
      match initUnwrapped with
      | .arrayLit elems => extractOptionsFromObjectArray fuel checker elems
      | .callExpr _ _ =>
          match extractFromCallExpression fuel checker initUnwrapped with
          | .ok r => .ok r
          | .error _ => emptyOptions
      | _ => emptyOptions
  | _ => emptyOptions

/-! ### Select default resolution and default-value extraction
(the select default module and `default-value.ts`) -/

abbrev SelectDefaultResult := Except ExtractionError (Option JsLit)

/-- enum-resolver.ts `resolveEnumLikeValue`. -/
def resolveEnumLikeValue (fuel : Nat) (checker : Checker) (valueInitializer : TsNode) :
    Except ExtractionError JsLit :=
  match evaluate fuel checker valueInitializer with
  | .ok v => .ok v
  | .error e => .error (createExtractionError .CannotEvaluate e.message valueInitializer)

/-- The select default module's `extractDefaultFromArrowFunction`: search
the `.map()` callback body for a `default: true` (or comparison-shaped)
marker and resolve the accompanying value. -/
def extractDefaultFromArrowFunction (fuel : Nat) (checker : Checker)
    (args : List TsNode) (obj : TsNode) : SelectDefaultResult :=
  match args.head? with
  | none => .ok none
  | some a0 =>
      match getArrowFunctionBody a0 with
      | some (.objectLit bodyObj) =>
          let defInit := getPropertyAssignment bodyObj DEFAULT_PROPERTY
          let fromTrueMarker : Option JsLit :=
            match defInit with
            | some .trueKw =>
                match getPropertyInitializer bodyObj VALUE_PROPERTY with
                | some valueInit =>
                    match resolveEnumLikeValue fuel checker valueInit with
                    | .ok v => some v
                    | .error _ => none
                | none => none
            | _ => none
          match fromTrueMarker with
          | some v => .ok (some v)
          | none =>
              match defInit with
              | some (.binary _ _ right) =>
                  match resolveEnumLikeValue fuel checker right with
                  | .ok v => .ok (some v)
                  | .error _ =>
                      match getPropertyInitializer bodyObj VALUE_PROPERTY with
                      | none => .ok none
                      | some valueInit =>
                          match resolveEnumLikeValue fuel checker valueInit with
                          | .ok v => .ok (some v)
                          | .error _ => .ok none
              | some (.callExpr _ _) =>
                  match obj with
                  | .arrayLit (firstEl :: _) =>
                      match firstEl with
                      | .strLit s => .ok (some (.str s))
                      | _ =>
                          match resolveEnumLikeValue fuel checker firstEl with
                          | .ok v => .ok (some v)
                          | .error _ => .ok none
                  | _ => .ok none
              | _ => .ok none
      | _ => .ok none

/-- The inner `findDefaultInElement` closure of
`findDefaultInArrayLiteral`, parameterized by the enclosing recursion:
an object element yields its `value` when it carries a literal
`default: true` marker and the value evaluates; a spread of an
identifier that resolves to an array literal recurses; everything else
yields nothing. -/
def findDefaultInElement (fuel : Nat) (checker : Checker)
    (recurse : List TsNode → SelectDefaultResult) (element : TsNode) : SelectDefaultResult :=
  match element with
  | .objectLit obj =>
      match getPropertyAssignment obj DEFAULT_PROPERTY with
      | some .trueKw =>
          match getPropertyInitializer obj VALUE_PROPERTY with
          | none => .ok none
          | some valueInit =>
              match evaluate fuel checker valueInit with
              | .ok v => .ok (some v)
              | .error _ => .ok none
      | _ => .ok none
  | .spreadElem expr =>
      match expr with
      | .ident _ =>
          match resolveIdentifierInitializerNode expr checker with
          | some (.arrayLit elems) => recurse elems
          | _ => .ok none
      | _ => .ok none
  | _ => .ok none

/-- The select default module's `findDefaultInArrayLiteral`: the first
element yielding a defined marker value wins.  `fuel` bounds the spread
recursion (and the evaluator). -/
def findDefaultInArrayLiteral : Nat → Checker → List TsNode → SelectDefaultResult
  | 0, _, _ => .ok none
  | fuel + 1, checker, elements =>
      let elemFn := findDefaultInElement fuel checker (findDefaultInArrayLiteral fuel checker)
      let firstDefault := elements.find? fun el =>
        match elemFn el with
        | .ok (some _) => true
        | _ => false
      match firstDefault with
      | some el => elemFn el
      | none => .ok none
termination_by structural fuel => fuel

/-- The select default module's `extractDefaultFromCallExpression`. -/
def extractDefaultFromCallExpression (fuel : Nat) (checker : Checker) (call : TsNode) :
    SelectDefaultResult :=
  match call with
  | .callExpr callee args =>
      match callee with
      | .propAccess target mname =>
          if mname != "map" then .ok none
          else
            let fromArray : Option JsLit :=
              match target with
              | .arrayLit _ =>
                  match extractDefaultFromArrowFunction fuel checker args target with
                  | .ok (some v) => some v
                  | _ => none
              | _ => none
            match fromArray with
            | some v => .ok (some v)
            | none =>
                let fromIdent : Option JsLit :=
                  match target with
                  | .ident _ =>
                      match extractDefaultFromArrowFunction fuel checker args target with
                      | .ok (some v) => some v
                      | _ => none
                  | _ => none
                match fromIdent with
                | some v => .ok (some v)
                | none =>
                    match target with
                    | .callExpr innerCallee keysArgs =>
                        match innerCallee with
                        | .propAccess _ innerName =>
                            if innerName != "keys" then .ok none
                            else
                              match keysArgs.head? with
                              | none => .ok none
                              | some objTarget =>
                                  match objTarget with
                                  | .ident tname =>
                                      match args.head? with
                                      | none => .ok none
                                      | some a0 =>
                                          match getArrowFunctionBody a0 with
                                          | some (.objectLit bodyObj) =>
                                              match getPropertyAssignment bodyObj DEFAULT_PROPERTY with
                                              | some defInit =>
                                                  let hasDefaultTrue :=
                                                    match defInit with
                                                    | .trueKw => true
                                                    | .binary _ op _ => op == BinOp.eqEqEq
                                                    | _ => false
                                                  if hasDefaultTrue then
                                                    let resolvedObj : Option (List ObjProp) :=
                                                      match resolveIdentifierInitializerNode objTarget checker with
                                                      | some (.objectLit ps) => some ps
                                                      | _ =>
                                                          match alistFind checker.fileVarInit tname with
                                                          | some (.objectLit ps) => some ps
                                                          | _ => none
                                                    match resolvedObj with
                                                    | some ps =>
                                                        match ps.find? (fun p =>
                                                          match p with
                                                          | .assign _ _ => true
                                                          | _ => false) with
                                                        | some (.assign n _) => .ok (some (.str n))
                                                        | _ => .ok none
                                                    | none => .ok none
                                                  else .ok none
                                              | none => .ok none
                                          | _ => .ok none
                                  | _ => .ok none
                        | _ => .ok none
                    | _ => .ok none
      | _ => .ok none
  | _ => .ok none

/-- The select default module's `extractSelectDefault`. -/
def extractSelectDefault (fuel : Nat) (checker : Checker) (valueObjProps : List ObjProp) :
    SelectDefaultResult :=
  match getPropertyAssignment valueObjProps OPTIONS_PROPERTY with
  | none => .ok none
  | some initializer =>
      let initUnwrapped := (getArrowFunctionBody initializer).getD initializer
      match initUnwrapped with
      | .callExpr _ _ =>
          match extractDefaultFromCallExpression fuel checker initUnwrapped with
          | .ok (some v) => .ok (some v)
          | _ => .ok none
      | .arrayLit elems => findDefaultInArrayLiteral fuel checker elems
      | _ => .ok none

/-- node-utils.ts `resolveCallExpressionReturn`. -/
def resolveCallExpressionReturn (node : TsNode) (checker : Checker) : Option TsNode :=
  match node with
  | .callExpr callee _ =>
      match callee with
      | .propAccess (.ident baseName) mname =>
          match alistFind checker.varInit baseName with
          | some (.objectLit ps) =>
              match getProperty ps mname with
              | some (.assign _ (.arrowFn body)) => some (unwrapNode body)
              | _ => none
          | _ => none
      | .propAccess _ _ => none
      | .ident name =>
          match alistFind checker.arrowDecl name with
          | some body => some (unwrapNode body)
          | none =>
              match alistFind checker.varInit name with
              | some (.arrowFn body) => some (unwrapNode body)
              | _ => none
      | _ => none
  | _ => none

/-- default-value.ts `handleEmpty` (keyed on the node's kind). -/
def handleEmpty : TsNode → Except ExtractionError JsVal
  | .arrayLit _ => .ok (.arr [])
  | .objectLit _ => .ok (.obj [])
  | _ => .ok .undef

def optLitToVal : Option JsLit → JsVal
  | none => .undef
  | some v => v.toVal

/-- default-value.ts `handleIdentifier`. -/
def handleIdentifier (fuel : Nat) (checker : Checker) (unwrappedInitializer : TsNode)
    (identText : String) : Except ExtractionError JsVal :=
  if identText == "undefined" then .ok .null
  else
    match resolveIdentifierInitializerNode unwrappedInitializer checker with
    | none => .ok .undef
    | some initv =>
        let unwrappedNode := unwrapNode initv
        if unwrappedNode.getText == "undefined" || unwrappedNode.kindName == "UndefinedKeyword"
        then .ok .null
        else if isCollectionKind unwrappedNode then handleEmpty unwrappedNode
        else .ok (optLitToVal (tryEvaluate fuel checker initv))

/-- JavaScript object update `{ ...acc, [key]: value }`. -/
def jsObjSet (m : List (String × JsVal)) (k : String) (v : JsVal) : List (String × JsVal) :=
  if (alistFind m k).isSome then
    m.map fun kv => if kv.1 == k then (k, v) else kv
  else m ++ [(k, v)]

/-- default-value.ts `handleCallExpression`: fold the call's first
object-literal argument into a concrete attribute map, degrading
unevaluable collection properties to empty collections; without such an
argument, resolve the callee's return or fall back by callee text. -/
def handleCallExpression (fuel : Nat) (checker : Checker) (call : TsNode) :
    Except ExtractionError JsVal :=
  match call with
  | .callExpr callee args =>
      match args.head? with
      | some (.objectLit objLiteral) =>
          let result := (iteratePropertyAssignments objLiteral).foldl
            (fun (acc : List (String × JsVal)) nv =>
              match tryEvaluate fuel checker nv.2 with
              | some v => jsObjSet acc nv.1 v.toVal
              | none =>
                  if isCollectionKind nv.2 then
                    jsObjSet acc nv.1
                      (match nv.2 with
                       | .arrayLit _ => .arr []
                       | _ => .obj [])
                  else acc)
            []
          .ok (.obj result)
      | _ =>
          match resolveCallExpressionReturn call checker with
          | some resolved => handleEmpty resolved
          | none =>
              let exprText := callee.getText
              if strStartsWith exprText "Object." || strStartsWith exprText "Array." then
                if strIncludes exprText "fromEntries" || strIncludes exprText "assign" ||
                   strIncludes exprText "create" then .ok (.obj [])
                else if strIncludes exprText "keys" || strIncludes exprText "values" ||
                        strIncludes exprText "entries" then .ok (.arr [])
                else .ok .undef
              else .ok .undef
  | _ => .ok .undef

def stripBigIntSuffix (raw : String) : String :=
  match raw.data.getLast? with
  | some c => if c == 'n' || c == 'N' then String.mk raw.data.dropLast else raw
  | none => raw

/-- default-value.ts `extractDefaultValue`. -/
def extractDefaultValue (fuel : Nat) (checker : Checker) (props : List ObjProp) :
    Except ExtractionError JsVal :=
  match getPropertyInitializer props DEFAULT_PROPERTY with
  | none => .ok .undef
  | some initializer =>
      let u := unwrapNode initializer
      if u.kindName == "TemplateExpression" then .ok .undef
      else
        match u with
        | .bigintLit raw => .ok (.str (stripBigIntSuffix raw))
        | .nullKw => .ok .null
        | .undefinedKw => .ok .null
        | .arrayLit _ => handleEmpty u
        | .objectLit _ => handleEmpty u
        | .propAccess baseE _ =>
            match baseE with
            | .ident bn =>
                if bn == GET_FUNCTION_NAME then .ok .undef
                else .ok (optLitToVal (tryEvaluate fuel checker u))
            | _ => .ok (optLitToVal (tryEvaluate fuel checker u))
        | .ident name => handleIdentifier fuel checker u name
        | .callExpr _ _ => handleCallExpression fuel checker u
        | _ =>
            match tryEvaluate fuel checker u with
            | some v => .ok v.toVal
            | none =>
                .error (createExtractionError .CannotEvaluate
                  ("Cannot evaluate default value from node kind: " ++ u.kindName) u)

/-! ### Default-value shape checks (`default-value-checks/index.ts`) -/

def isObjectLitNode : TsNode → Bool
  | .objectLit _ => true
  | _ => false

def isCallExprNode : TsNode → Bool
  | .callExpr _ _ => true
  | _ => false

/-- default-value-checks `isStringArray`. -/
def isStringArray (elems : List TsNode) : Bool :=
  elems.all fun el => match el with | .strLit _ => true | _ => false

/-- default-value-checks `checkStringArrayInit`. -/
def checkStringArrayInit : TsNode → Bool
  | .arrayLit es => isStringArray es
  | .asExpr e t =>
      stringArrayTypeTest t &&
      (match e with | .arrayLit _ => true | _ => false)
  | _ => false

/-- default-value-checks `getIdentifierInit`: the symbol's value
declaration's raw initializer. -/
def getIdentifierInit (checker : Checker) (name : String) : Option TsNode :=
  alistFind checker.varInit name

/-- default-value-checks `hasStringArrayDefault`. -/
def hasStringArrayDefault (checker : Checker) (valueObjProps : List ObjProp) : Bool :=
  match getDefaultPropertyInitializer valueObjProps with
  | none => false
  | some init =>
      match init with
      | .ident name =>
          match getIdentifierInit checker name with
          | some valueInit => checkStringArrayInit valueInit
          | none => false
      | _ => checkStringArrayInit init

/-- default-value-checks `resolveIdentifierArrayDefault`: the `default`
initializer is an identifier whose declaration initializer is a
string-array literal (possibly under a single `as`-expression). -/
def resolveIdentifierArrayDefault (checker : Checker) (valueObjProps : List ObjProp) : Bool :=
  match getDefaultPropertyInitializer valueObjProps with
  | some (.ident name) =>
      match getIdentifierInit checker name with
      | some valueInit =>
          match valueInit with
          | .arrayLit es => isStringArray es
          | .asExpr e _ =>
              match e with
              | .arrayLit es => isStringArray es
              | _ => false
          | _ => false
      | none => false
  | _ => false

/-- default-value-checks `isArrayExprWithObjects`. -/
def isArrayExprWithObjects : TsNode → Bool
  | .arrayLit es => !es.isEmpty && es.all isObjectLitNode
  | _ => false

/-- default-value-checks `resolveFuncBody`: the unwrapped body of the
arrow function an identifier declares (symbol first, then the lexical
declaration table, which is only consulted when a symbol declaration
exists at all). -/
def resolveFuncBody (checker : Checker) (node : TsNode) : Option TsNode :=
  match node with
  | .ident name =>
      let hasDecl :=
        (alistFind checker.arrowDecl name).isSome || (alistFind checker.varInit name).isSome
      if !hasDecl then none
      else
        match alistFind checker.arrowDecl name with
        | some body => some (unwrapNode body)
        | none =>
            match alistFind checker.varInit name with
            | some (.arrowFn body) => some (unwrapNode body)
            | _ =>
                match alistFind checker.fileVarInit name with
                | some (.arrowFn body) => some (unwrapNode body)
                | _ => none
  | _ => none

/-- default-value-checks `hasObjectArrayDefault`. -/
def hasObjectArrayDefault (checker : Checker) (valueObjProps : List ObjProp) : Bool :=
  match getDefaultPropertyInitializer valueObjProps with
  | none => false
  | some init =>
      match init with
      | .arrayLit _ => isArrayExprWithObjects init
      | .asExpr e t => (arrayBracketTest t || arrayGenericTest t) && isArrayExprWithObjects e
      | .callExpr callee _ =>
          match callee with
          | .ident _ =>
              match resolveFuncBody checker callee with
              | some b => isArrayExprWithObjects (unwrapNode b)
              | none => false
          | _ => false
      | .ident name =>
          match getIdentifierInit checker name with
          | some valueInit =>
              let unwrapped :=
                match valueInit with
                | .asExpr e _ => e
                | o => o
              isArrayExprWithObjects unwrapped
          | none => false
      | _ => false

/-- default-value-checks `hasComponentProp`. -/
def hasComponentProp (valueObjProps : List ObjProp) : Bool :=
  (getProperty valueObjProps COMPONENT_PROPERTY).isSome

/-- default-value-checks `hasEmptyArrayWithTypeAnnotation`. -/
def hasEmptyArrayWithTypeAnnotation (checker : Checker) (valueObjProps : List ObjProp) : Bool :=
  match getDefaultPropertyInitializer valueObjProps with
  | none => false
  | some init =>
      match init with
      | .asExpr e t =>
          (match e with
           | .arrayLit es => (arrayBracketTest t || arrayGenericTest t) && es.isEmpty
           | _ => false)
      | .callExpr callee _ =>
          match callee with
          | .ident name =>
              let funcBody : Option TsNode :=
                match alistFind checker.arrowDecl name with
                | some b => some b
                | none =>
                    match alistFind checker.varInit name with
                    | some (.arrowFn b) => some b
                    | _ => none
              match funcBody with
              | none => false
              | some b =>
                  match unwrapNode b with
                  | .arrayLit es =>
                      es.isEmpty || es.all fun el => isObjectLitNode el || isCallExprNode el
                  | _ => false
          | _ => false
      | _ => false

/-! ### Single-pass type inference (`type-inference/index.ts`) -/

structure TypeInferenceResult where
  finalNixType : String
  selectEnumValues : Option (List JsLit)
  defaultValue : JsVal

/-- The effective enum choice list of `inferNixTypeAndEnumValues`
(lines 59–70): classifier-provided enum values when non-empty, else the
AST-extracted literals when non-empty, else undefined. -/
def computedSelectEnumValues (fuel : Nat) (checker : Checker)
    (valueObjProps : List ObjProp) (rawSetting : RawSetting) : Option (List JsLit) :=
  let enumValues := (tsTypeToNixType rawSetting checker).enumValues
  let astEnumLiterals :=
    match extractSelectOptions fuel checker valueObjProps with
    | .ok r => r.values
    | .error _ => []
  let hasAstEnumValues := !astEnumLiterals.isEmpty
  match enumValues with
  | some l =>
      if !l.isEmpty then some l
      else if hasAstEnumValues then some astEnumLiterals else none
  | none => if hasAstEnumValues then some astEnumLiterals else none

/-- The `isBooleanEnum` test of `inferNixTypeAndEnumValues` (lines
72–77): defined, exactly `BOOLEAN_ENUM_LENGTH` entries, all booleans,
pairwise distinct. -/
def isBooleanEnumTest (selectEnumValues : Option (List JsLit)) : Bool :=
  match selectEnumValues with
  | some vs =>
      vs.length == BOOLEAN_ENUM_LENGTH &&
      (vs.all fun v => match v with | .bool _ => true | _ => false) &&
      vs.dedup.length == BOOLEAN_ENUM_LENGTH
  | none => false

/-- type-inference `createMinimalProps` (also duplicated in
`default-value-resolution.ts`). -/
def createMinimalProps : SettingProperties :=
  { typeNode := none, description := none, placeholder := none,
    restartNeeded := false, hidden := false, defaultLiteralValue := .undef }

/-- type-inference `classifyComponentOrCustom`. -/
def classifyComponentOrCustom (valueObjProps : List ObjProp) (_props : SettingProperties)
    (baseType : String) (defaultValue : JsVal) : String × JsVal :=
  match getProperty valueObjProps DEFAULT_PROPERTY with
  | some (.getAccessor _) => (NIX_TYPE_NULL_OR_STR, .null)
  | _ =>
      let init := getDefaultPropertyInitializer valueObjProps
      match init with
      | some (.strLit _) => (NIX_TYPE_STR, defaultValue)
      | _ =>
          if isString defaultValue then (NIX_TYPE_STR, defaultValue)
          else
            let idHandled : Option (String × JsVal) :=
              match init with
              | some (.ident _) =>
                  if isCustomType valueObjProps createMinimalProps then
                    some (NIX_TYPE_ATTRS, defaultValue)
                  else none
              | _ => none
            match idHandled with
            | some r => r
            | none =>
                if baseType == NIX_TYPE_ATTRS || baseType == NIX_TYPE_LIST_OF_ATTRS ||
                   baseType == NIX_TYPE_LIST_OF_STR then (baseType, defaultValue)
                else if (match defaultValue with
                         | .undef => true
                         | .null => true
                         | .obj _ => true
                         | _ => false) then (NIX_TYPE_ATTRS, defaultValue)
                else (baseType, defaultValue)

/-- type-inference `classifySetting`. -/
def classifySetting (checker : Checker) (valueObjProps : List ObjProp)
    (props : SettingProperties) (baseType : String) : String × JsVal :=
  let defaultValue := props.defaultLiteralValue
  let isComponentOrCustom :=
    match props.typeNode with
    | some t =>
        strIncludes t.getText OPTION_TYPE_COMPONENT || strIncludes t.getText OPTION_TYPE_CUSTOM
    | none => false
  let hasStringArray := hasStringArrayDefault checker valueObjProps
  let hasIdentifierStringArray :=
    (match defaultValue with | .undef => true | _ => false) &&
    resolveIdentifierArrayDefault checker valueObjProps
  let hasObjectArray := hasObjectArrayDefault checker valueObjProps
  let hasEmptyTypedArray := hasEmptyArrayWithTypeAnnotation checker valueObjProps
  if hasStringArray || hasIdentifierStringArray then (NIX_TYPE_LIST_OF_STR, .arr [])
  else
    let objArrayHandled : Option (String × JsVal) :=
      if hasObjectArray then
        let init := getDefaultPropertyInitializer valueObjProps
        let isIdentifierDefault := match init with | some (.ident _) => true | _ => false
        if !isIdentifierDefault then some (NIX_TYPE_LIST_OF_ATTRS, .arr []) else none
      else none
    match objArrayHandled with
    | some r => r
    | none =>
        if hasEmptyTypedArray then
          let typeNodeText := match props.typeNode with | some t => t.getText | none => ""
          if strIncludes typeNodeText OPTION_TYPE_CUSTOM then (NIX_TYPE_LIST_OF_ATTRS, .arr [])
          else (NIX_TYPE_LIST_OF_STR, .arr [])
        else
          let emptyLiteralArray :=
            match getDefaultPropertyInitializer valueObjProps with
            | some (.arrayLit []) => true
            | _ => false
          if emptyLiteralArray then (NIX_TYPE_LIST_OF_STR, .arr [])
          else if isComponentOrCustom then
            classifyComponentOrCustom valueObjProps props baseType defaultValue
          else (baseType, defaultValue)

/-- type-inference `inferNixTypeAndEnumValues`: the single-pass
classifier.  A two-valued boolean enum collapses to `types.bool` with no
choices; any other non-empty choice list yields `types.enum`; otherwise
the setting is classified by shape. -/
def inferNixTypeAndEnumValues (fuel : Nat) (checker : Checker)
    (valueObjProps : List ObjProp) (props : SettingProperties)
    (rawSetting : RawSetting) : TypeInferenceResult :=
  let base := tsTypeToNixType rawSetting checker
  let selectEnumValues := computedSelectEnumValues fuel checker valueObjProps rawSetting
  if isBooleanEnumTest selectEnumValues then
    { finalNixType := NIX_TYPE_BOOL, selectEnumValues := none,
      defaultValue := props.defaultLiteralValue }
  else
    match selectEnumValues with
    | some vs =>
        { finalNixType := "types.enum", selectEnumValues := some vs,
          defaultValue := props.defaultLiteralValue }
    | none =>
        let classification := classifySetting checker valueObjProps props base.nixType
        { finalNixType := classification.1,
          selectEnumValues := none,
          defaultValue :=
            match classification.2 with
            | .undef => props.defaultLiteralValue
            | .null => props.defaultLiteralValue
            | v => v }

/-! ### Default-value resolution (`default-value-resolution.ts`) -/

def BARE_COMPONENT_ALLOWED_PROPS : List String :=
  ["type", "component", "description", "name", "restartNeeded", "hidden", "placeholder"]

/-- default-value-resolution `isBareComponentSetting`. -/
def isBareComponentSetting (valueObjProps : List ObjProp) : Bool :=
  let hasOnlyAllowed := valueObjProps.all fun p =>
    match p with
    | .assign n _ => n == "" || BARE_COMPONENT_ALLOWED_PROPS.contains n
    | .methodDecl n => n == "" || BARE_COMPONENT_ALLOWED_PROPS.contains n
    | _ => true
  hasOnlyAllowed && (getProperty valueObjProps DEFAULT_PROPERTY).isNone &&
    (getProperty valueObjProps COMPONENT_PROPERTY).isSome

/-- default-value-resolution `resolveAttrsDefault`. -/
def resolveAttrsDefault (fuel : Nat) (checker : Checker) (valueObjProps : List ObjProp) : JsVal :=
  let defPropNode := getProperty valueObjProps DEFAULT_PROPERTY
  match defPropNode with
  | some (.assign _ init) =>
      match init with
      | .ident _ =>
          if hasObjectArrayDefault checker valueObjProps then .arr [] else .obj []
      | .callExpr _ _ =>
          match extractDefaultValue fuel checker valueObjProps with
          | .ok v => v
          | .error _ => .obj []
      | _ => .obj []
  | some (.getAccessor _) => .null
  | none => .obj []
  | _ => .obj []

structure ResolvedDefaultValue where
  finalNixType : String
  defaultValue : JsVal

def JsVal.isUndef : JsVal → Bool
  | .undef => true
  | _ => false

def JsVal.isNull : JsVal → Bool
  | .null => true
  | _ => false

/-- default-value-resolution `resolveDefaultValue`: the sequential
default-resolution pipeline, in source order: the string-array collapse;
the boolean and enum marker searches; the string-type
promotion/demotion; the nullOr default; the attrs default; the final
nullable-string-to-attrs promotion. -/
def resolveDefaultValue (fuel : Nat) (checker : Checker) (valueObjProps : List ObjProp)
    (finalNixType : String) (defaultLiteralValue : JsVal)
    (selectEnumValues : Option (List JsLit)) : ResolvedDefaultValue :=
  if defaultLiteralValue.isUndef &&
     (resolveIdentifierArrayDefault checker valueObjProps ||
      hasStringArrayDefault checker valueObjProps) then
    { finalNixType := NIX_TYPE_LIST_OF_STR, defaultValue := .arr [] }
  else
    let defaultValue1 :=
      if finalNixType == NIX_TYPE_BOOL && defaultLiteralValue.isUndef then
        match extractSelectDefault fuel checker valueObjProps with
        | .ok (some v) => v.toVal
        | _ => .bool false
      else defaultLiteralValue
    let defaultValue2 :=
      if finalNixType == NIX_ENUM_TYPE && defaultLiteralValue.isUndef then
        match extractSelectDefault fuel checker valueObjProps with
        | .ok (some v) => v.toVal
        | _ =>
            match selectEnumValues with
            | some (c :: _) => c.toVal
            | _ => .undef
      else defaultValue1
    let strStep : String × JsVal :=
      if finalNixType == NIX_TYPE_STR && defaultValue2.isUndef then
        let init := getDefaultPropertyInitializer valueObjProps
        let initIdent := match init with | some (.ident _) => true | _ => false
        let customType := isCustomType valueObjProps createMinimalProps
        let hasObjArray := hasObjectArrayDefault checker valueObjProps
        if initIdent && (customType || hasObjArray) then
          (NIX_TYPE_ATTRS, if hasObjArray then .arr [] else .obj [])
        else (NIX_TYPE_NULL_OR_STR, .null)
      else (finalNixType, defaultValue2)
    let finalNixTypeWithNull1 := strStep.1
    let isNullOrType :=
      strIncludes finalNixType "nullOr" || strIncludes finalNixTypeWithNull1 "nullOr"
    let nullStep : String × JsVal :=
      if isNullOrType && defaultLiteralValue.isUndef then
        (if strIncludes finalNixType "nullOr" && !strIncludes finalNixTypeWithNull1 "nullOr"
         then finalNixType else finalNixTypeWithNull1, .null)
      else (finalNixTypeWithNull1, strStep.2)
    let defaultValue5 :=
      if finalNixType == NIX_TYPE_ATTRS && nullStep.2.isUndef then
        resolveAttrsDefault fuel checker valueObjProps
      else nullStep.2
    let defaultValue6 :=
      if finalNixType == NIX_TYPE_ATTRS && defaultValue5.isUndef then
        if isBareComponentSetting valueObjProps then .obj []
        else resolveAttrsDefault fuel checker valueObjProps
      else defaultValue5
    if finalNixType == NIX_TYPE_NULL_OR_STR && defaultValue6.isNull then
      let init := getDefaultPropertyInitializer valueObjProps
      let initIdent := match init with | some (.ident _) => true | _ => false
      let customType := isCustomType valueObjProps createMinimalProps
      let hasObjArray := hasObjectArrayDefault checker valueObjProps
      if initIdent && (customType || hasObjArray) then
        { finalNixType := NIX_TYPE_ATTRS,
          defaultValue := if hasObjArray then .arr [] else .obj [] }
      else { finalNixType := nullStep.1, defaultValue := defaultValue6 }
    else { finalNixType := nullStep.1, defaultValue := defaultValue6 }

/-! ### The settings-tree extractor (`settings-extractor.ts`) -/

mutual
/-- settings-extractor `extractLiteralValue` on a present node: literal
shapes to runtime values; arrays recurse element-wise; property accesses
go through the evaluator; everything else is `undefined`. -/
def extractLiteralValueNode (fuel : Nat) (checker : Checker) : TsNode → JsVal
  | .strLit s => .str s
  | .numLit q => .num q
  | .bigintLit raw => .str (stripBigIntSuffix raw)
  | .trueKw => .bool true
  | .falseKw => .bool false
  | .arrayLit es => .arr (extractLiteralValueList fuel checker es)
  | .propAccess b n =>
      match evaluate fuel checker (.propAccess b n) with
      | .ok v => v.toVal
      | .error _ => .undef
  | _ => .undef

def extractLiteralValueList (fuel : Nat) (checker : Checker) : List TsNode → List JsVal
  | [] => []
  | x :: xs =>
      extractLiteralValueNode fuel checker x :: extractLiteralValueList fuel checker xs
end

/-- settings-extractor `extractLiteralValue` (`undefined` for a missing
node). -/
def extractLiteralValue (fuel : Nat) (checker : Checker) : Option TsNode → JsVal
  | none => .undef
  | some node => extractLiteralValueNode fuel checker node

/-- settings-extractor `extractProperties`. -/
def extractProperties (fuel : Nat) (checker : Checker) (valueObjProps : List ObjProp) :
    SettingProperties :=
  { typeNode := getPropertyInitializer valueObjProps "type",
    description :=
      match extractStringLiteralValue valueObjProps DESCRIPTION_PROPERTY with
      | some d => some d
      | none => extractStringLiteralValue valueObjProps NAME_PROPERTY,
    placeholder := extractStringLiteralValue valueObjProps "placeholder",
    restartNeeded :=
      match getPropertyInitializer valueObjProps "restartNeeded" with
      | some .trueKw => true
      | _ => false,
    hidden :=
      match getProperty valueObjProps "hidden" with
      | some (.assign _ .trueKw) => true
      | _ => false,
    defaultLiteralValue :=
      extractLiteralValue fuel checker (getPropertyInitializer valueObjProps "default") }

/-- The emitted leaf setting record (`PluginSetting`, shared/types.ts). -/
structure PluginSetting where
  name : String
  type : String
  description : Option String
  default : JsVal
  enumValues : Option (List JsLit)
  enumLabels : Option (List (String × String))
  exampleVal : Option String
  hidden : Option Bool
  restartNeeded : Bool

/-- settings-extractor `buildPluginSetting` (JavaScript falsiness of the
empty description and emptiness checks on choices/labels included). -/
def buildPluginSetting (key : String) (finalNixType : String) (description : Option String)
    (defaultValue : JsVal) (selectEnumValues : Option (List JsLit))
    (enumLabels : Option (List (String × String))) (placeholder : Option String)
    (hidden : Bool) (restartNeeded : Bool) : PluginSetting :=
  { name := key,
    type := finalNixType,
    description :=
      match description with
      | some d =>
          if d == "" then none
          else some (if restartNeeded then d ++ " (restart required)" else d)
      | none => none,
    default := defaultValue,
    enumValues :=
      match selectEnumValues with
      | some vs => if vs.isEmpty then none else some vs
      | none => none,
    enumLabels :=
      match enumLabels with
      | some ls => if ls.isEmpty then none else some ls
      | none => none,
    exampleVal := placeholder,
    hidden := if hidden then some true else none,
    restartNeeded := restartNeeded }

/-- settings-extractor `isSettingsGroup`. -/
def isSettingsGroup (nestedProperties : List (String × TsNode)) : Bool :=
  let hasTypeProperty := nestedProperties.any fun p => p.1 == "type" || p.1 == "description"
  let hasNestedSettings := nestedProperties.any fun p => isObjectLitNode p.2
  hasNestedSettings && !hasTypeProperty

/-- The leaf branch of the extractor reduce (settings-extractor lines
122–146): gather properties, extract options, classify, resolve the
default, build the setting. -/
def extractLeafSetting (fuel : Nat) (checker : Checker) (key : String)
    (valueObjProps : List ObjProp) : PluginSetting :=
  let props := extractProperties fuel checker valueObjProps
  let optionsResult := extractSelectOptions fuel checker valueObjProps
  let extractedOptions :=
    match optionsResult with
    | .ok r => some r.values
    | .error _ => none
  let extractedLabels :=
    match optionsResult with
    | .ok r => some r.labels
    | .error _ => none
  let rawSetting : RawSetting :=
    { type := match props.typeNode with | some t => .node t | none => .absent,
      default := props.defaultLiteralValue,
      options :=
        match extractedOptions with
        | some vs => .arr (vs.map JsLit.toVal)
        | none => .undef }
  let cls := tsTypeToNixType rawSetting checker
  let resolved := resolveDefaultValue fuel checker valueObjProps cls.nixType
    props.defaultLiteralValue cls.enumValues
  buildPluginSetting key resolved.finalNixType props.description resolved.defaultValue
    cls.enumValues extractedLabels props.placeholder props.hidden props.restartNeeded

/-- The extracted tree: leaf settings and nested groups. -/
inductive SettingOrGroup where
  | leaf (s : PluginSetting)
  | group (name : String) (settings : List (String × SettingOrGroup))

/-- JavaScript record insertion `acc[key] = v`. -/
def objUpsert {α : Type} (m : List (String × α)) (k : String) (v : α) : List (String × α) :=
  if (alistFind m k).isSome then
    m.map fun kv => if kv.1 == k then (k, v) else kv
  else m ++ [(k, v)]

/-- settings-extractor `extractSettingsFromPropertyIterable`: filter out
non-object properties and (unless `skipHiddenCheck`) those marked
`hidden: true`, then fold each surviving property into the accumulator
as a nested group or a leaf setting.  `fuel` bounds group nesting. -/
def extractSettingsFromPropertyIterable (fuel : Nat) (checker : Checker)
    (properties : List (String × TsNode)) (skipHiddenCheck : Bool) :
    List (String × SettingOrGroup) :=
  match fuel with
  | 0 => []
  | fuel' + 1 =>
      let filtered := properties.filter fun p =>
        p.1 != "" &&
        (match p.2 with
         | .objectLit ps =>
             skipHiddenCheck ||
             !(match getProperty ps "hidden" with
               | some (.assign _ .trueKw) => true
               | _ => false)
         | _ => false)
      filtered.foldl
        (fun acc p =>
          match p.2 with
          | .objectLit valueObjProps =>
              let nestedProperties := iteratePropertyAssignments valueObjProps
              if isSettingsGroup nestedProperties then
                objUpsert acc p.1 (.group p.1
                  (extractSettingsFromPropertyIterable fuel' checker nestedProperties
                    skipHiddenCheck))
              else
                let props := extractProperties fuel' checker valueObjProps
                if !skipHiddenCheck && props.hidden then acc
                else objUpsert acc p.1 (.leaf (extractLeafSetting fuel' checker p.1 valueObjProps))
          | _ => acc)
        []

/-- settings-extractor `extractSettingsFromObject`. -/
def extractSettingsFromObject (fuel : Nat) (checker : Checker) (objProps : List ObjProp)
    (skipHiddenCheck : Bool) : List (String × SettingOrGroup) :=
  extractSettingsFromPropertyIterable fuel checker (iteratePropertyAssignments objProps)
    skipHiddenCheck

/-! ## Concrete contexts used by the theorems -/

/-- A checker with a single resolvable constant `cfg = 42`. -/
def sampleChecker : Checker :=
  { varInit := [("cfg", .numLit 42)], fileVarInit := [], enumMemberOf := [],
    identEnumMember := [], typeAt := fun _ => none, arrowDecl := [] }

/-- A checker with no resolvable symbols. -/
def emptyChecker : Checker :=
  { varInit := [], fileVarInit := [], enumMemberOf := [], identEnumMember := [],
    typeAt := fun _ => none, arrowDecl := [] }

/-! ## Claims -/

/-- C2: the claim states that every expression wrapped in a
type-assertion wrapper or parentheses evaluates to the same outcome as
the inner expression — in particular, a wrapped identifier, property
access or binary expression evaluates to `Ok` of the inner value.  The
code contradicts this: the wrapper branch of `evaluate` calls
`resolveIdentifierWithFallback` on the wrapper node itself, and that
resolver returns nothing for every non-identifier node, so all wrapped
non-literals evaluate to `Err("Cannot unwrap node")` even when the inner
expression evaluates successfully; only wrapped literals survive, via
`isLiteralNode`/`evaluateLiteral`.  This theorem evaluates the embedded
code at the failing inputs. -/
theorem C2_wrapped_non_literals_error :
    evaluate 10 sampleChecker (.ident "cfg") = .ok (.num 42) ∧
    evaluate 10 sampleChecker (.asExpr (.ident "cfg") "any") =
      .error (createEvaluationError "Cannot unwrap node: cfg as any"
        (.asExpr (.ident "cfg") "any")) ∧
    (evaluate 10 sampleChecker (.binary (.numLit 1) .plus (.numLit 2))).isOk = true ∧
    (evaluate 10 sampleChecker (.paren (.binary (.numLit 1) .plus (.numLit 2)))).isOk = false ∧
    evaluate 10 sampleChecker (.asExpr (.numLit 5) "any") = .ok (.num 5) := by
  refine ⟨rfl, rfl, by decide, by decide, rfl⟩

/-- C3: for every binary expression node, `evaluate` succeeds exactly
when both operands evaluate to numbers and the operator is one of the
eleven supported arithmetic/bitwise operators of `BINARY_OPERATORS`; a
non-numeric operand or an unsupported operator always yields an
evaluation error, never a fabricated value. -/
theorem C3_binary_expression_ok_iff (fuel : Nat) (checker : Checker)
    (l r : TsNode) (op : BinOp) :
    (evaluate (fuel + 1) checker (.binary l op r)).isOk = true ↔
      ((BINARY_OPERATORS op).isSome = true ∧
       (∃ p, evaluate fuel checker l = .ok (.num p)) ∧
       (∃ q, evaluate fuel checker r = .ok (.num q))) := by
  have hev : evaluate (fuel + 1) checker (.binary l op r) =
      (if isSupportedBinaryExpression (.binary l op r) then
        evaluateBinaryExpression checker (evaluate fuel checker) (.binary l op r)
      else
        .error (createEvaluationError
          ("Cannot evaluate node of type " ++ (TsNode.binary l op r).kindName)
          (.binary l op r))) := rfl
  rw [hev]
  rcases hop : BINARY_OPERATORS op with _ | f
  · have hsup : isSupportedBinaryExpression (.binary l op r) = false := by
      simp [isSupportedBinaryExpression, hop]
    simp [hsup, Except.isOk, Except.toBool, hop]
  · have hsup : isSupportedBinaryExpression (.binary l op r) = true := by
      simp [isSupportedBinaryExpression, hop]
    simp only [hsup, if_true]
    rcases hl : evaluate fuel checker l with e | v
    · simp [evaluateBinaryExpression, hl, Except.isOk, Except.toBool]
    · rcases hr : evaluate fuel checker r with e | w
      · cases v <;> simp [evaluateBinaryExpression, hl, hr, Except.isOk, Except.toBool]
      · cases v <;> cases w <;>
          simp [evaluateBinaryExpression, hl, hr, hop, Except.isOk, Except.toBool]

/-- C1: whenever the single-pass classifier's effective choice list
(`computedSelectEnumValues`, which combines the annotation-derived and
AST-extracted choices exactly as `inferNixTypeAndEnumValues` does)
consists of exactly two distinct boolean values, the classifier yields
the boolean target type, discards the enum choices from the emitted
setting, and keeps the extracted literal default — independently of the
declared type annotation, which is quantified over freely through
`rawSetting` and `props`. -/
theorem C1_boolean_enum_collapse (fuel : Nat) (checker : Checker)
    (valueObjProps : List ObjProp) (props : SettingProperties) (rawSetting : RawSetting)
    (a b : Bool)
    (h : computedSelectEnumValues fuel checker valueObjProps rawSetting =
          some [.bool a, .bool b])
    (hab : a ≠ b) :
    inferNixTypeAndEnumValues fuel checker valueObjProps props rawSetting =
      { finalNixType := NIX_TYPE_BOOL, selectEnumValues := none,
        defaultValue := props.defaultLiteralValue } := by
  have hb : isBooleanEnumTest
      (computedSelectEnumValues fuel checker valueObjProps rawSetting) = true := by
    rw [h]
    cases a <;> cases b <;> first | exact absurd rfl hab | decide
  simp [inferNixTypeAndEnumValues, hb]

/-- The value object of the C1 witness: a setting whose declared
annotation resolves to the STRING token while its AST `options` array
enumerates `true` and `false`. -/
def C1sampleObj : List ObjProp :=
  [.assign "type" (.propAccess (.ident "OptionType") "STRING"),
   .assign "options" (.arrayLit [.objectLit [.assign "value" .trueKw],
                                 .objectLit [.assign "value" .falseKw]])]

def C1sampleRaw : RawSetting :=
  { type := .node (.propAccess (.ident "OptionType") "STRING"),
    default := .undef, options := .undef }

theorem C1_boolean_enum_collapse_witness :
    inferNixTypeAndEnumValues 3 emptyChecker C1sampleObj
        (extractProperties 3 emptyChecker C1sampleObj) C1sampleRaw =
      { finalNixType := NIX_TYPE_BOOL, selectEnumValues := none, defaultValue := .undef } := by
  exact C1_boolean_enum_collapse 3 emptyChecker C1sampleObj
    (extractProperties 3 emptyChecker C1sampleObj) C1sampleRaw true false rfl (by decide)

/-- An enumerated option element carrying the literal `default: true`
marker (claim-side helper for the marker-search theorems). -/
def optionElementMarked : TsNode → Bool
  | .objectLit ps =>
      match getPropertyAssignment ps DEFAULT_PROPERTY with
      | some .trueKw => true
      | _ => false
  | _ => false

theorem findDefaultInElement_unmarked (fuel : Nat) (checker : Checker)
    (recurse : List TsNode → SelectDefaultResult) (el : TsNode)
    (hobj : isObjectLitNode el = true) (hm : optionElementMarked el = false) :
    findDefaultInElement fuel checker recurse el = .ok none := by
  cases el <;> simp [isObjectLitNode] at hobj
  case objectLit ps =>
    simp only [optionElementMarked] at hm
    simp only [findDefaultInElement]
    rcases hd : getPropertyAssignment ps DEFAULT_PROPERTY with _ | init
    · simp [hd]
    · rw [hd] at hm
      cases init <;> simp [hd] at hm ⊢

theorem find?_append_first_pos {α : Type} (p : α → Bool) (pre post : List α) (x : α)
    (hpre : ∀ e ∈ pre, p e = false) (hx : p x = true) :
    (pre ++ x :: post).find? p = some x := by
  induction pre with
  | nil => simp [List.find?_cons, hx]
  | cons e es ih =>
      have he : p e = false := hpre e (by simp)
      simp only [List.cons_append, List.find?_cons, he]
      exact ih fun e' he' => hpre e' (by simp [he'])

theorem getPropertyAssignment_none_of_getProperty_none {ps : List ObjProp} {name : String}
    (h : getProperty ps name = none) : getPropertyAssignment ps name = none := by
  simp [getPropertyAssignment, h]

theorem resolveDefaultValue_enum_noLiteralDefault (fuel : Nat) (checker : Checker)
    (ps : List ObjProp) (sev : Option (List JsLit))
    (hnodef : getProperty ps DEFAULT_PROPERTY = none) :
    resolveDefaultValue fuel checker ps NIX_ENUM_TYPE .undef sev =
      { finalNixType := NIX_ENUM_TYPE,
        defaultValue :=
          match extractSelectDefault fuel checker ps with
          | .ok (some v) => v.toVal
          | _ =>
              match sev with
              | some (c :: _) => c.toVal
              | _ => .undef } := by
  have hpa := getPropertyAssignment_none_of_getProperty_none hnodef
  have hpi : getDefaultPropertyInitializer ps = none := by
    simp [getDefaultPropertyInitializer, getPropertyInitializer, hpa]
  have h1 : resolveIdentifierArrayDefault checker ps = false := by
    simp [resolveIdentifierArrayDefault, hpi]
  have h2 : hasStringArrayDefault checker ps = false := by
    simp [hasStringArrayDefault, hpi]
  simp only [resolveDefaultValue, h1, h2, JsVal.isUndef,
    show (NIX_ENUM_TYPE == NIX_TYPE_BOOL) = false from by decide,
    show (NIX_ENUM_TYPE == NIX_ENUM_TYPE) = true from by decide,
    show (NIX_ENUM_TYPE == NIX_TYPE_STR) = false from by decide,
    show (NIX_ENUM_TYPE == NIX_TYPE_ATTRS) = false from by decide,
    show (NIX_ENUM_TYPE == NIX_TYPE_NULL_OR_STR) = false from by decide,
    show strIncludes NIX_ENUM_TYPE "nullOr" = false from by decide,
    Bool.false_and, Bool.and_true, Bool.true_and, Bool.or_self, Bool.and_false,
    if_false, if_true]
  have hni : strIncludes NIX_ENUM_TYPE "nullOr" = false := by decide
  rcases hsd : extractSelectDefault fuel checker ps with e | ov
  · rcases sev with _ | l
    · simp [hni]
    · rcases l with _ | ⟨c, cs⟩ <;> simp [hni]
  · rcases ov with _ | v
    · rcases sev with _ | l
      · simp [hni]
      · rcases l with _ | ⟨c, cs⟩ <;> simp [hni]
    · cases v <;> simp [hni]

theorem extractSelectDefault_arrayOptions (fuel : Nat) (checker : Checker)
    (ps : List ObjProp) (elems : List TsNode)
    (hopt : getPropertyAssignment ps OPTIONS_PROPERTY = some (.arrayLit elems)) :
    extractSelectDefault fuel checker ps = findDefaultInArrayLiteral fuel checker elems := by
  simp [extractSelectDefault, hopt, getArrowFunctionBody]

theorem findDefaultInArrayLiteral_marked (fuel : Nat) (checker : Checker)
    (pre post : List TsNode) (obj : List ObjProp) (v : JsLit)
    (hpre : ∀ e ∈ pre, isObjectLitNode e = true ∧ optionElementMarked e = false)
    (hm : getPropertyAssignment obj DEFAULT_PROPERTY = some .trueKw)
    (hvi : ∃ vi, getPropertyInitializer obj VALUE_PROPERTY = some vi ∧
            evaluate fuel checker vi = .ok v) :
    findDefaultInArrayLiteral (fuel + 1) checker (pre ++ .objectLit obj :: post) =
      .ok (some v) := by
  obtain ⟨vi, h1, h2⟩ := hvi
  have helem : findDefaultInElement fuel checker
      (findDefaultInArrayLiteral fuel checker) (.objectLit obj) = .ok (some v) := by
    simp [findDefaultInElement, hm, h1, h2]
  have hunfold : findDefaultInArrayLiteral (fuel + 1) checker
      (pre ++ .objectLit obj :: post) =
      (match (pre ++ .objectLit obj :: post).find? (fun el =>
          match findDefaultInElement fuel checker (findDefaultInArrayLiteral fuel checker) el with
          | .ok (some _) => true
          | _ => false) with
       | some el => findDefaultInElement fuel checker (findDefaultInArrayLiteral fuel checker) el
       | none => .ok none) := rfl
  have hfind : (pre ++ .objectLit obj :: post).find? (fun el =>
      match findDefaultInElement fuel checker (findDefaultInArrayLiteral fuel checker) el with
      | .ok (some _) => true
      | _ => false) = some (.objectLit obj) := by
    apply find?_append_first_pos
    · intro e he
      rw [findDefaultInElement_unmarked fuel checker
        (findDefaultInArrayLiteral fuel checker) e (hpre e he).1 (hpre e he).2]
    · rw [helem]
  rw [hunfold, hfind]
  exact helem

theorem findDefaultInArrayLiteral_no_marker (fuel : Nat) (checker : Checker)
    (elems : List TsNode)
    (h : ∀ e ∈ elems, isObjectLitNode e = true ∧ optionElementMarked e = false) :
    findDefaultInArrayLiteral (fuel + 1) checker elems = .ok none := by
  have hunfold : findDefaultInArrayLiteral (fuel + 1) checker elems =
      (match elems.find? (fun el =>
          match findDefaultInElement fuel checker (findDefaultInArrayLiteral fuel checker) el with
          | .ok (some _) => true
          | _ => false) with
       | some el => findDefaultInElement fuel checker (findDefaultInArrayLiteral fuel checker) el
       | none => .ok none) := rfl
  have hfind : elems.find? (fun el =>
      match findDefaultInElement fuel checker (findDefaultInArrayLiteral fuel checker) el with
      | .ok (some _) => true
      | _ => false) = none := by
    rw [List.find?_eq_none]
    intro x hx
    rw [findDefaultInElement_unmarked fuel checker
      (findDefaultInArrayLiteral fuel checker) x (h x hx).1 (h x hx).2]
    simp
  rw [hunfold, hfind]

/-- C4: for a setting classified as the enumerated-choice type whose
`options` property is a literal array and which has no `default`
property (hence no successfully evaluated literal default):
* if one element carries the explicit `default: true` marker (every
  earlier element being an unmarked object), the resolved default is
  that element's evaluated `value`, whatever its position;
* if no element carries the marker, the resolved default is the first
  enumerated choice;
* if the choice list is empty (or absent), the default is left
  unresolved (`undefined`).

The target type is left at `types.enum` throughout. -/
theorem C4_enum_default_marker_search (fuel : Nat) (checker : Checker)
    (valueObjProps : List ObjProp) (elems : List TsNode)
    (sev : Option (List JsLit))
    (hopt : getPropertyAssignment valueObjProps OPTIONS_PROPERTY = some (.arrayLit elems))
    (hnodef : getProperty valueObjProps DEFAULT_PROPERTY = none) :
    (∀ pre post obj v, elems = pre ++ .objectLit obj :: post →
        (∀ e ∈ pre, isObjectLitNode e = true ∧ optionElementMarked e = false) →
        getPropertyAssignment obj DEFAULT_PROPERTY = some .trueKw →
        (∃ vi, getPropertyInitializer obj VALUE_PROPERTY = some vi ∧
               evaluate fuel checker vi = .ok v) →
        resolveDefaultValue (fuel + 1) checker valueObjProps NIX_ENUM_TYPE .undef sev =
          { finalNixType := NIX_ENUM_TYPE, defaultValue := v.toVal }) ∧
    ((∀ e ∈ elems, isObjectLitNode e = true ∧ optionElementMarked e = false) →
        (∀ c cs, sev = some (c :: cs) →
            resolveDefaultValue (fuel + 1) checker valueObjProps NIX_ENUM_TYPE .undef sev =
              { finalNixType := NIX_ENUM_TYPE, defaultValue := c.toVal }) ∧
        ((sev = none ∨ sev = some []) →
            resolveDefaultValue (fuel + 1) checker valueObjProps NIX_ENUM_TYPE .undef sev =
              { finalNixType := NIX_ENUM_TYPE, defaultValue := .undef })) := by
  have hbase := resolveDefaultValue_enum_noLiteralDefault (fuel + 1) checker valueObjProps sev
    hnodef
  have hsd := extractSelectDefault_arrayOptions (fuel + 1) checker valueObjProps elems hopt
  constructor
  · intro pre post obj v helems hpre hm hvi
    have hfd : findDefaultInArrayLiteral (fuel + 1) checker elems = .ok (some v) := by
      rw [helems]
      exact findDefaultInArrayLiteral_marked fuel checker pre post obj v hpre hm hvi
    rw [hbase, hsd, hfd]
  · intro hall
    have hfd : findDefaultInArrayLiteral (fuel + 1) checker elems = .ok none :=
      findDefaultInArrayLiteral_no_marker fuel checker elems hall
    constructor
    · intro c cs hc
      rw [hbase, hsd, hfd, hc]
    · rintro (hc | hc) <;> rw [hbase, hsd, hfd, hc]

/-- The value object of the C4 witness: an enum setting whose `options`
array marks its middle element `default: true`. -/
def C4sampleObj : List ObjProp :=
  [.assign "options" (.arrayLit
    [.objectLit [.assign "value" (.strLit "x")],
     .objectLit [.assign "value" (.strLit "y"), .assign "default" .trueKw],
     .objectLit [.assign "value" (.strLit "z")]])]

theorem C4_enum_default_marker_search_witness :
    resolveDefaultValue 3 emptyChecker C4sampleObj NIX_ENUM_TYPE .undef
        (some [.str "x", .str "y", .str "z"]) =
      { finalNixType := NIX_ENUM_TYPE, defaultValue := .str "y" } := by
  exact (C4_enum_default_marker_search 2 emptyChecker C4sampleObj
      (.objectLit [.assign "value" (.strLit "x")] ::
        .objectLit [.assign "value" (.strLit "y"), .assign "default" .trueKw] ::
        .objectLit [.assign "value" (.strLit "z")] :: [])
      (some [.str "x", .str "y", .str "z"]) rfl rfl).1
    [.objectLit [.assign "value" (.strLit "x")]]
    [.objectLit [.assign "value" (.strLit "z")]]
    [.assign "value" (.strLit "y"), .assign "default" .trueKw]
    (.str "y") rfl
    (by intro e he; simp at he; rw [he]; exact ⟨rfl, rfl⟩)
    rfl ⟨.strLit "y", rfl, rfl⟩

/-- The value object of the C5 counterexample: a setting whose `default`
is a non-empty literal array of plain string literals. -/
def C5sampleObj : List ObjProp :=
  [.assign "default" (.arrayLit [.strLit "a", .strLit "b"])]

/-- C5 counterexample: for a setting whose `default` property is a
non-empty literal array of string literals, the settings extractor does
NOT emit the list-of-string type with an empty default.  The extracted
literal default is the array itself (so it is not `undefined`), the
string-array collapse in `resolveDefaultValue` is guarded on an
`undefined` literal default and does not fire, and the runtime-shape
classifier types the array as `types.attrs`, emitting the declared
literal values as the default. -/
theorem C5_literal_string_array_counterexample :
    (extractLeafSetting 5 emptyChecker "ignoredUsers" C5sampleObj).type = NIX_TYPE_ATTRS ∧
    (extractLeafSetting 5 emptyChecker "ignoredUsers" C5sampleObj).default =
      .arr [.str "a", .str "b"] ∧
    (extractLeafSetting 5 emptyChecker "ignoredUsers" C5sampleObj).type ≠
      NIX_TYPE_LIST_OF_STR := by
  refine ⟨by decide, rfl, by decide⟩

/-- C5 (amended): the ListOfStr-with-empty-default collapse holds for
identifier defaults that resolve to a literal string array — there the
extracted literal default is `undefined` and the collapse fires,
regardless of the classifier's base type. -/
theorem C5_identifier_string_array_collapse (fuel : Nat) (checker : Checker)
    (key name : String) (valueObjProps : List ObjProp) (es : List TsNode)
    (hdef : getProperty valueObjProps DEFAULT_PROPERTY =
      some (.assign DEFAULT_PROPERTY (.ident name)))
    (hres : alistFind checker.varInit name = some (.arrayLit es))
    (hstr : isStringArray es = true) :
    (extractLeafSetting fuel checker key valueObjProps).type = NIX_TYPE_LIST_OF_STR ∧
    (extractLeafSetting fuel checker key valueObjProps).default = .arr [] := by
  have hpi : getPropertyInitializer valueObjProps DEFAULT_PROPERTY = some (.ident name) := by
    simp [getPropertyInitializer, getPropertyAssignment, hdef]
  have hdlv : extractLiteralValue fuel checker
      (getPropertyInitializer valueObjProps "default") = .undef := by
    rw [show ("default" : String) = DEFAULT_PROPERTY from rfl, hpi]
    rfl
  have hrid : resolveIdentifierArrayDefault checker valueObjProps = true := by
    simp [resolveIdentifierArrayDefault, getDefaultPropertyInitializer, hpi,
      getIdentifierInit, hres, hstr]
  have hcol : ∀ t sev, resolveDefaultValue fuel checker valueObjProps t .undef sev =
      { finalNixType := NIX_TYPE_LIST_OF_STR, defaultValue := .arr [] } := by
    intro t sev
    simp [resolveDefaultValue, JsVal.isUndef, hrid]
  constructor <;>
    simp [extractLeafSetting, buildPluginSetting, extractProperties, hdlv, hcol]

/-- The checker and value object of the C5 witness:
`const myArr = ["a"]` with `default: myArr`. -/
def C5witnessChecker : Checker :=
  { varInit := [("myArr", .arrayLit [.strLit "a"])], fileVarInit := [], enumMemberOf := [],
    identEnumMember := [], typeAt := fun _ => none, arrowDecl := [] }

def C5witnessObj : List ObjProp := [.assign "default" (.ident "myArr")]

theorem C5_identifier_string_array_collapse_witness :
    (extractLeafSetting 4 C5witnessChecker "ignoredUsers" C5witnessObj).type =
      NIX_TYPE_LIST_OF_STR ∧
    (extractLeafSetting 4 C5witnessChecker "ignoredUsers" C5witnessObj).default = .arr [] := by
  exact C5_identifier_string_array_collapse 4 C5witnessChecker "ignoredUsers" "myArr"
    C5witnessObj [.strLit "a"] rfl rfl (by decide)

/-- The annotation node of the C6 theorems: `OptionType.NUMBER`
(unresolvable as an enum symbol, so the token name itself is used). -/
def C6sampleType : TsNode := .propAccess (.ident "OptionType") "NUMBER"

/-- C6 counterexample: a NUMBER-annotated setting with no (numeric)
default classifies as `types.float`, not `types.int` — the claim's
"Int unless the literal default is a non-integral number" fails when
there is no numeric default at all. -/
theorem C6_number_without_default_counterexample :
    (tsTypeToNixType { type := .node C6sampleType, default := .undef, options := .undef }
      emptyChecker).nixType = NIX_TYPE_FLOAT ∧
    (tsTypeToNixType { type := .node C6sampleType, default := .undef, options := .undef }
      emptyChecker).nixType ≠ NIX_TYPE_INT := by
  refine ⟨by decide, by decide⟩

/-- C6 (amended): for a setting whose annotation resolves to the NUMBER
token, classification yields `types.int` exactly when the literal
default is an integral number, and `types.float` otherwise — including
when the default is non-integral, missing, or not a number; enumerated
choices are never attached on this path. -/
theorem C6_number_annotation_classification (setting : RawSetting) (checker : Checker)
    (tn : TsNode)
    (htype : setting.type = .node tn)
    (hname : resolveOptionTypeNameFromNode tn checker = some OPTION_TYPE_NUMBER) :
    tsTypeToNixType setting checker =
      { nixType :=
          match setting.default with
          | .num q => if q.den == 1 then NIX_TYPE_INT else NIX_TYPE_FLOAT
          | _ => NIX_TYPE_FLOAT,
        enumValues := none } := by
  rcases setting with ⟨t, dv, opts⟩
  simp only at htype
  subst htype
  simp only [tsTypeToNixType, hname,
    show (OPTION_TYPE_NUMBER == OPTION_TYPE_BOOLEAN) = false from by decide,
    show (OPTION_TYPE_NUMBER == OPTION_TYPE_STRING) = false from by decide,
    show (OPTION_TYPE_NUMBER == OPTION_TYPE_NUMBER) = true from by decide,
    Bool.false_eq_true, if_false, if_true]

theorem C6_number_annotation_classification_witness :
    tsTypeToNixType { type := .node C6sampleType, default := .num 3, options := .undef }
        emptyChecker =
      { nixType := NIX_TYPE_INT, enumValues := none } := by
  exact (C6_number_annotation_classification
    { type := .node C6sampleType, default := .num 3, options := .undef }
    emptyChecker C6sampleType rfl rfl).trans rfl

/-- The value object of the C7 counterexample: a COMPONENT-typed setting
whose `default` member is a get-accessor. -/
def C7sampleObj : List ObjProp :=
  [.assign "type" (.propAccess (.ident "OptionType") "COMPONENT"),
   .getAccessor "default"]

/-- C7 counterexample: in the settings extractor pipeline
(`tsTypeToNixType` followed by `resolveDefaultValue`), a setting of
attribute-set target type whose `default` property is a get-accessor is
emitted with default `null` but keeps the attribute-set type — it is NOT
demoted to the nullable-string type as the claim states. -/
theorem C7_getter_default_counterexample :
    (extractLeafSetting 5 emptyChecker "pins" C7sampleObj).type = NIX_TYPE_ATTRS ∧
    (extractLeafSetting 5 emptyChecker "pins" C7sampleObj).default = .null ∧
    (extractLeafSetting 5 emptyChecker "pins" C7sampleObj).type ≠ NIX_TYPE_NULL_OR_STR := by
  refine ⟨by decide, rfl, by decide⟩

/-- C7 (amended): when the `default` property is declared as a
get-accessor and the setting's target type is the attribute-set type
with no literal default, `resolveDefaultValue` resolves the default to
`null` while keeping `types.attrs`; the demotion to nullable-string with
`null` default happens only in the single-pass classifier's
`classifyComponentOrCustom`. -/
theorem C7_getter_default_resolution (fuel : Nat) (checker : Checker)
    (valueObjProps : List ObjProp) (gname : String) (sev : Option (List JsLit))
    (hg : getProperty valueObjProps DEFAULT_PROPERTY = some (.getAccessor gname)) :
    resolveDefaultValue fuel checker valueObjProps NIX_TYPE_ATTRS .undef sev =
      { finalNixType := NIX_TYPE_ATTRS, defaultValue := .null } ∧
    (∀ props baseType dv, classifyComponentOrCustom valueObjProps props baseType dv =
      (NIX_TYPE_NULL_OR_STR, .null)) := by
  have hpa : getPropertyAssignment valueObjProps DEFAULT_PROPERTY = none := by
    simp [getPropertyAssignment, hg]
  have hpi : getDefaultPropertyInitializer valueObjProps = none := by
    simp [getDefaultPropertyInitializer, getPropertyInitializer, hpa]
  have h1 : resolveIdentifierArrayDefault checker valueObjProps = false := by
    simp [resolveIdentifierArrayDefault, hpi]
  have h2 : hasStringArrayDefault checker valueObjProps = false := by
    simp [hasStringArrayDefault, hpi]
  have had : resolveAttrsDefault fuel checker valueObjProps = .null := by
    simp [resolveAttrsDefault, hg]
  constructor
  · simp [resolveDefaultValue, JsVal.isUndef, JsVal.isNull, h1, h2, had,
      show (NIX_TYPE_ATTRS == NIX_TYPE_BOOL) = false from by decide,
      show (NIX_TYPE_ATTRS == NIX_ENUM_TYPE) = false from by decide,
      show (NIX_TYPE_ATTRS == NIX_TYPE_STR) = false from by decide,
      show (NIX_TYPE_ATTRS == NIX_TYPE_ATTRS) = true from by decide,
      show (NIX_TYPE_ATTRS == NIX_TYPE_NULL_OR_STR) = false from by decide,
      show strIncludes NIX_TYPE_ATTRS "nullOr" = false from by decide]
  · intro props baseType dv
    simp [classifyComponentOrCustom, hg]

theorem C7_getter_default_resolution_witness :
    resolveDefaultValue 3 emptyChecker C7sampleObj NIX_TYPE_ATTRS .undef none =
      { finalNixType := NIX_TYPE_ATTRS, defaultValue := .null } ∧
    classifyComponentOrCustom C7sampleObj createMinimalProps NIX_TYPE_ATTRS .undef =
      (NIX_TYPE_NULL_OR_STR, .null) := by
  have h := C7_getter_default_resolution 3 emptyChecker C7sampleObj "default" none rfl
  exact ⟨h.1, h.2 createMinimalProps NIX_TYPE_ATTRS .undef⟩

/-- A property value that is an object literal carrying the literal
`hidden: true` marker (claim-side helper for C8, mirroring the filter in
the settings extractor). -/
def hiddenMarkedObject : TsNode → Bool
  | .objectLit ps =>
      match getProperty ps "hidden" with
      | some (.assign _ .trueKw) => true
      | _ => false
  | _ => false

theorem alistFind_append {α : Type} (m1 m2 : List (String × α)) (key : String) :
    alistFind (m1 ++ m2) key =
      match alistFind m1 key with
      | some v => some v
      | none => alistFind m2 key := by
  induction m1 with
  | nil => simp [alistFind]
  | cons p rest ih =>
      rcases p with ⟨k0, v0⟩
      by_cases h : (k0 == key) = true <;> simp [alistFind, h, ih]

theorem alistFind_replaceAll_ne {α : Type} (m : List (String × α)) (k key : String) (v : α)
    (hne : (k == key) = false) :
    alistFind (m.map fun kv => if kv.1 == k then (k, v) else kv) key = alistFind m key := by
  induction m with
  | nil => simp [alistFind]
  | cons p rest ih =>
      rcases p with ⟨k0, v0⟩
      simp only [List.map_cons]
      split
      case isTrue h0 =>
        have hk : k0 = k := by simpa using h0
        subst hk
        have ih' : alistFind (List.map (fun kv => if kv.1 = k0 then (k0, v) else kv) rest) key =
            alistFind rest key := by simpa using ih
        simp [alistFind, hne, ih']
      case isFalse h0 =>
        have ih' : alistFind (List.map (fun kv => if kv.1 = k then (k, v) else kv) rest) key =
            alistFind rest key := by simpa using ih
        simp [alistFind, ih']

theorem alistFind_replaceAll_self {α : Type} (m : List (String × α)) (k : String) (v : α)
    (hsome : (alistFind m k).isSome = true) :
    alistFind (m.map fun kv => if kv.1 == k then (k, v) else kv) k = some v := by
  induction m with
  | nil => simp [alistFind] at hsome
  | cons p rest ih =>
      rcases p with ⟨k0, v0⟩
      simp only [List.map_cons]
      split
      case isTrue h0 => simp [alistFind]
      case isFalse h0 =>
        have h0' : (k0 == k) = false := by simpa using h0
        simp only [alistFind, h0', Bool.false_eq_true, if_false] at hsome
        have ih' := ih hsome
        simp only [alistFind, h0', Bool.false_eq_true, if_false]
        simpa using ih'

theorem alistFind_objUpsert_ne {α : Type} (m : List (String × α)) (k key : String) (v : α)
    (hne : (k == key) = false) :
    alistFind (objUpsert m k v) key = alistFind m key := by
  unfold objUpsert
  split
  · exact alistFind_replaceAll_ne m k key v hne
  · rw [alistFind_append]
    rcases h : alistFind m key with _ | w
    · simp [alistFind, hne]
    · simp

theorem alistFind_objUpsert_self {α : Type} (m : List (String × α)) (k : String) (v : α) :
    alistFind (objUpsert m k v) k = some v := by
  unfold objUpsert
  split
  case isTrue h => exact alistFind_replaceAll_self m k v h
  case isFalse h =>
      rw [alistFind_append]
      rcases hm : alistFind m k with _ | w
      · simp [alistFind]
      · rw [hm] at h; simp at h

theorem alistFind_foldl_none {α β : Type} (key : String)
    (step : List (String × α) → β → List (String × α)) (name : β → String)
    (hstep : ∀ acc p, step acc p = acc ∨ ∃ x, step acc p = objUpsert acc (name p) x) :
    ∀ (l : List β) (acc : List (String × α)),
      (∀ p ∈ l, name p ≠ key) → alistFind acc key = none →
      alistFind (l.foldl step acc) key = none := by
  intro l
  induction l with
  | nil => intro acc _ hacc; simpa using hacc
  | cons p rest ih =>
      intro acc hl hacc
      have hp : name p ≠ key := hl p (by simp)
      have hcur : alistFind (step acc p) key = none := by
        rcases hstep acc p with h | ⟨x, h⟩
        · rw [h]; exact hacc
        · rw [h, alistFind_objUpsert_ne _ _ _ _ (by simpa using hp)]; exact hacc
      simpa using ih (step acc p) (fun q hq => hl q (by simp [hq])) hcur

theorem alistFind_foldl_isSome {α β : Type} (key : String)
    (step : List (String × α) → β → List (String × α)) (name : β → String)
    (hstep : ∀ acc p, step acc p = acc ∨ ∃ x, step acc p = objUpsert acc (name p) x)
    (target : β)
    (htarget : ∀ acc, ∃ x, step acc target = objUpsert acc (name target) x)
    (hname : name target = key) :
    ∀ (l : List β) (acc : List (String × α)),
      (target ∈ l ∨ (alistFind acc key).isSome = true) →
      (alistFind (l.foldl step acc) key).isSome = true := by
  have hpres : ∀ acc p, (alistFind acc key).isSome = true →
      (alistFind (step acc p) key).isSome = true := by
    intro acc p hacc
    rcases hstep acc p with h | ⟨x, h⟩
    · rw [h]; exact hacc
    · rw [h]
      by_cases hk : (name p == key) = true
      · have : name p = key := by simpa using hk
        rw [this, alistFind_objUpsert_self]; rfl
      · rw [alistFind_objUpsert_ne _ _ _ _ (by simpa using hk)]; exact hacc
  intro l
  induction l with
  | nil =>
      intro acc h
      rcases h with h | h
      · simp at h
      · simpa using h
  | cons p rest ih =>
      intro acc h
      rcases h with h | h
      · rcases List.mem_cons.mp h with h | h
        · subst h
          obtain ⟨x, hx⟩ := htarget acc
          have : (alistFind (step acc target) key).isSome = true := by
            rw [hx, hname, alistFind_objUpsert_self]; rfl
          exact ih (step acc target) (Or.inr this)
        · exact ih (step acc p) (Or.inl h)
      · exact ih (step acc p) (Or.inr (hpres acc p h))

/-- C8: a property of the settings object whose object-literal value
carries the explicit `hidden: true` marker is entirely absent from the
extracted settings tree when hidden settings are not retained
(`skipHiddenCheck = false`); when the caller requests retaining hidden
settings, every object-literal property (hidden or not) is present. -/
theorem C8_hidden_setting_filtering (fuel : Nat) (checker : Checker)
    (properties : List (String × TsNode)) (key : String) :
    ((∀ p ∈ properties, p.1 = key → hiddenMarkedObject p.2 = true) →
        alistFind (extractSettingsFromPropertyIterable (fuel + 1) checker properties false) key
          = none) ∧
    (∀ ps, (key, TsNode.objectLit ps) ∈ properties → key ≠ "" →
        (alistFind
          (extractSettingsFromPropertyIterable (fuel + 1) checker properties true) key).isSome
          = true) := by
  constructor
  · intro hall
    have hunfold : extractSettingsFromPropertyIterable (fuel + 1) checker properties false =
        (properties.filter fun p =>
          p.1 != "" &&
          (match p.2 with
           | .objectLit ps =>
               false ||
               !(match getProperty ps "hidden" with
                 | some (.assign _ .trueKw) => true
                 | _ => false)
           | _ => false)).foldl
          (fun acc p =>
            match p.2 with
            | .objectLit valueObjProps =>
                let nestedProperties := iteratePropertyAssignments valueObjProps
                if isSettingsGroup nestedProperties then
                  objUpsert acc p.1 (.group p.1
                    (extractSettingsFromPropertyIterable fuel checker nestedProperties false))
                else
                  let props := extractProperties fuel checker valueObjProps
                  if !false && props.hidden then acc
                  else
                    objUpsert acc p.1 (.leaf (extractLeafSetting fuel checker p.1 valueObjProps))
            | _ => acc)
          [] := rfl
    rw [hunfold]
    refine alistFind_foldl_none key _ Prod.fst ?_ _ [] ?_ rfl
    · intro acc p
      rcases p with ⟨k, n⟩
      cases n
      case objectLit ps =>
        by_cases hg : isSettingsGroup (iteratePropertyAssignments ps) = true
        · exact Or.inr ⟨_, by simp [hg]; rfl⟩
        · by_cases hh : (extractProperties fuel checker ps).hidden = true
          · exact Or.inl (by simp [hg, hh])
          · exact Or.inr ⟨_, by simp [hg, hh]; rfl⟩
      all_goals exact Or.inl rfl
    · intro p hp hkey
      have hmem := List.mem_filter.mp hp
      have hpred := hmem.2
      have hhid := hall p hmem.1 hkey
      rcases p with ⟨k, n⟩
      cases n <;> simp [hiddenMarkedObject] at hhid
      case objectLit ps =>
        simp only [Bool.and_eq_true, Bool.false_or] at hpred
        rw [show (match getProperty ps "hidden" with
              | some (.assign _ .trueKw) => true
              | _ => false) = true from hhid] at hpred
        simp at hpred
  · intro ps hmem hkey
    have hunfold : extractSettingsFromPropertyIterable (fuel + 1) checker properties true =
        (properties.filter fun p =>
          p.1 != "" &&
          (match p.2 with
           | .objectLit ps =>
               true ||
               !(match getProperty ps "hidden" with
                 | some (.assign _ .trueKw) => true
                 | _ => false)
           | _ => false)).foldl
          (fun acc p =>
            match p.2 with
            | .objectLit valueObjProps =>
                let nestedProperties := iteratePropertyAssignments valueObjProps
                if isSettingsGroup nestedProperties then
                  objUpsert acc p.1 (.group p.1
                    (extractSettingsFromPropertyIterable fuel checker nestedProperties true))
                else
                  let props := extractProperties fuel checker valueObjProps
                  if !true && props.hidden then acc
                  else
                    objUpsert acc p.1 (.leaf (extractLeafSetting fuel checker p.1 valueObjProps))
            | _ => acc)
          [] := rfl
    rw [hunfold]
    refine alistFind_foldl_isSome key _ Prod.fst ?_ (key, TsNode.objectLit ps) ?_ rfl _ []
      (Or.inl ?_)
    · intro acc p
      rcases p with ⟨k, n⟩
      cases n
      case objectLit qs =>
        by_cases hg : isSettingsGroup (iteratePropertyAssignments qs) = true
        · exact Or.inr ⟨_, by simp [hg]; rfl⟩
        · exact Or.inr ⟨_, by simp [hg]; rfl⟩
      all_goals exact Or.inl rfl
    · intro acc
      by_cases hg : isSettingsGroup (iteratePropertyAssignments ps) = true
      · exact ⟨_, by simp [hg]; rfl⟩
      · exact ⟨_, by simp [hg]; rfl⟩
    · refine List.mem_filter.mpr ⟨hmem, ?_⟩
      simp [hkey]

/-- The property list of the C8 witness: a hidden setting `secret` and a
visible setting `visible`. -/
def C8sampleProps : List (String × TsNode) :=
  [("secret", .objectLit [.assign "hidden" .trueKw, .assign "description" (.strLit "s")]),
   ("visible", .objectLit [.assign "description" (.strLit "v")])]

theorem C8_hidden_setting_filtering_witness :
    alistFind (extractSettingsFromPropertyIterable 3 emptyChecker C8sampleProps false) "secret"
      = none ∧
    (alistFind (extractSettingsFromPropertyIterable 3 emptyChecker C8sampleProps true)
      "secret").isSome = true := by
  constructor
  · exact (C8_hidden_setting_filtering 2 emptyChecker C8sampleProps "secret").1
      (by intro p hp hkey
          simp only [C8sampleProps, List.mem_cons, List.mem_singleton,
            List.not_mem_nil, or_false] at hp
          rcases hp with rfl | rfl
          · decide
          · exact absurd hkey (by decide))
  · exact (C8_hidden_setting_filtering 2 emptyChecker C8sampleProps "secret").2
      [.assign "hidden" .trueKw, .assign "description" (.strLit "s")]
      (by simp [C8sampleProps]) (by decide)

/-- An empty literal `options` array never produces an extraction error:
the guard `values.length === 0 && hasElements` requires at least one
element. -/
theorem extractOptionsFromObjectArray_nil_ok (fuel : Nat) (checker : Checker) :
    extractOptionsFromObjectArray fuel checker [] = .ok { values := [], labels := [] } := rfl

/-- Claim-side predicate, from the claim's words: the setting object's
`options` property matches none of the recognized enumeration idioms.
That is: there is no `options` property assignment, or its unwrapped
initializer is neither a literal array nor a call expression, or it is a
call expression that the call-pattern extractor
(`extractFromCallExpression`) rejects. -/
def noEnumIdiomMatch (fuel : Nat) (checker : Checker) (valueObjProps : List ObjProp) : Bool :=
  match getProperty valueObjProps OPTIONS_PROPERTY with
  | some (.assign _ initializer) =>
      match unwrapNode initializer with
      | .arrayLit _ => false
      | .callExpr _ _ =>
          match extractFromCallExpression fuel checker (unwrapNode initializer) with
          | .ok _ => false
          | .error _ => true
      | _ => true
  | _ => true

/-- C9: whenever the `options` property matches no recognized enumeration
idiom, `extractSelectOptions` returns the successful empty result (empty
`values`, empty `labels`), never an error; dually, every error it can
return comes from a recognized idiom, namely a non-empty literal
`options` array. -/
theorem C9_unmatched_options_empty_success (fuel : Nat) (checker : Checker)
    (valueObjProps : List ObjProp) :
    (noEnumIdiomMatch fuel checker valueObjProps = true →
        extractSelectOptions fuel checker valueObjProps
          = .ok { values := [], labels := [] }) ∧
    (∀ e, extractSelectOptions fuel checker valueObjProps = .error e →
        ∃ nm init elems,
          getProperty valueObjProps OPTIONS_PROPERTY = some (ObjProp.assign nm init) ∧
          unwrapNode init = TsNode.arrayLit elems ∧ elems ≠ []) := by
  cases hopt : getProperty valueObjProps OPTIONS_PROPERTY with
  | none =>
      refine ⟨fun _ => ?_, fun e he => ?_⟩
      · simp [extractSelectOptions, hopt, emptyOptions]
      · simp [extractSelectOptions, hopt, emptyOptions] at he
  | some p =>
      cases p with
      | assign nm init =>
          cases hun : unwrapNode init
          case arrayLit elems =>
            refine ⟨fun hno => ?_, fun e he => ?_⟩
            · simp [noEnumIdiomMatch, hopt, hun] at hno
            · simp only [extractSelectOptions, hopt, hun] at he
              refine ⟨nm, init, elems, rfl, hun, ?_⟩
              intro hnil
              subst hnil
              rw [extractOptionsFromObjectArray_nil_ok] at he
              exact Except.noConfusion he
          case callExpr c as =>
            cases hcall : extractFromCallExpression fuel checker (TsNode.callExpr c as) with
            | ok r =>
                refine ⟨fun hno => ?_, fun e he => ?_⟩
                · simp [noEnumIdiomMatch, hopt, hun, hcall] at hno
                · simp [extractSelectOptions, hopt, hun, hcall] at he
            | error e2 =>
                refine ⟨fun _ => ?_, fun e he => ?_⟩
                · simp [extractSelectOptions, hopt, hun, hcall, emptyOptions]
                · simp [extractSelectOptions, hopt, hun, hcall, emptyOptions] at he
          all_goals
            exact ⟨fun _ => by simp [extractSelectOptions, hopt, hun, emptyOptions],
              fun e he => absurd he
                (by simp [extractSelectOptions, hopt, hun, emptyOptions])⟩
      | getAccessor n =>
          refine ⟨fun _ => ?_, fun e he => ?_⟩
          · simp [extractSelectOptions, hopt, emptyOptions]
          · simp [extractSelectOptions, hopt, emptyOptions] at he
      | methodDecl n =>
          refine ⟨fun _ => ?_, fun e he => ?_⟩
          · simp [extractSelectOptions, hopt, emptyOptions]
          · simp [extractSelectOptions, hopt, emptyOptions] at he
      | otherMember =>
          refine ⟨fun _ => ?_, fun e he => ?_⟩
          · simp [extractSelectOptions, hopt, emptyOptions]
          · simp [extractSelectOptions, hopt, emptyOptions] at he

/-- The setting object of the C9 witness: its `options` property is a
plain function call, which matches no recognized enumeration idiom. -/
def C9sampleProps : List ObjProp :=
  [.assign "type" (.propAccess (.ident "OptionType") "SELECT"),
   .assign "options" (.callExpr (.ident "makeOptions") [])]

theorem C9_unmatched_options_empty_success_witness :
    noEnumIdiomMatch 3 emptyChecker C9sampleProps = true ∧
    extractSelectOptions 3 emptyChecker C9sampleProps
      = .ok { values := [], labels := [] } :=
  ⟨by decide, (C9_unmatched_options_empty_success 3 emptyChecker C9sampleProps).1 (by decide)⟩

/-- Claim-side description of one element of a literal `options` array:
the values it contributes to the choice list.  An object element whose
`value` property evaluates contributes that value; a resolvable spread
contributes the values of the spread-in array; everything else (failing
objects, unresolvable spreads, non-object elements) contributes
nothing. -/
def optionElementYield (fuel : Nat) (checker : Checker) : TsNode → List JsLit
  | .objectLit ps =>
      match extractValueAndLabel fuel checker ps with
      | .ok vl => [vl.value]
      | .error _ => []
  | .spreadElem e =>
      match extractFromSpreadElement fuel checker e with
      | .ok r => r.values
      | .error _ => []
  | _ => []

/-- Claim-side description of the surviving choice list: the
concatenation, in source order, of every element's yield. -/
def survivingOptionValues (fuel : Nat) (checker : Checker) : List TsNode → List JsLit
  | [] => []
  | el :: rest =>
      optionElementYield fuel checker el ++ survivingOptionValues fuel checker rest

/-- The value component of `extractOptionsFromObjectArray`'s fold is the
accumulator followed by the surviving values of the remaining
elements. -/
theorem objectArray_fold_values (fuel : Nat) (checker : Checker) :
    ∀ (elems : List TsNode) (acc : List JsLit × List (String × String)),
      (elems.foldl
        (fun (acc : List JsLit × List (String × String)) el =>
          match el with
          | .objectLit ps =>
              addValueAndLabel acc.1 acc.2 (extractValueAndLabel fuel checker ps)
          | .spreadElem e =>
              match extractFromSpreadElement fuel checker e with
              | .ok r => (acc.1 ++ r.values, recordAssign acc.2 r.labels)
              | .error _ => acc
          | _ => acc)
        acc).1 = acc.1 ++ survivingOptionValues fuel checker elems := by
  intro elems
  induction elems with
  | nil => intro acc; simp [survivingOptionValues]
  | cons el rest ih =>
      intro acc
      rw [List.foldl_cons, ih]
      cases el
      case objectLit ps =>
        cases hv : extractValueAndLabel fuel checker ps with
        | ok vl => simp [addValueAndLabel, hv, survivingOptionValues, optionElementYield]
        | error e => simp [addValueAndLabel, hv, survivingOptionValues, optionElementYield]
      case spreadElem e =>
        cases hs : extractFromSpreadElement fuel checker e with
        | ok r => simp [hs, survivingOptionValues, optionElementYield]
        | error err => simp [hs, survivingOptionValues, optionElementYield]
      all_goals simp [survivingOptionValues, optionElementYield]

/-- C10: for a literal `options` array, elements that fail to evaluate
are silently omitted and the surviving values are kept in source order
(the extracted value list is exactly the concatenated per-element
yields); an extraction error is returned precisely when the array is
non-empty and no element yields a value. -/
theorem C10_literal_array_silent_omission (fuel : Nat) (checker : Checker)
    (elems : List TsNode) :
    ((extractOptionsFromObjectArray fuel checker elems).isOk = false ↔
        elems ≠ [] ∧ survivingOptionValues fuel checker elems = []) ∧
    (∀ r, extractOptionsFromObjectArray fuel checker elems = .ok r →
        r.values = survivingOptionValues fuel checker elems) := by
  have hvals : (List.foldl
      (fun (acc : List JsLit × List (String × String)) el =>
        match el with
        | .objectLit ps =>
            addValueAndLabel acc.1 acc.2 (extractValueAndLabel fuel checker ps)
        | .spreadElem e =>
            match extractFromSpreadElement fuel checker e with
            | .ok r => (acc.1 ++ r.values, recordAssign acc.2 r.labels)
            | .error _ => acc
        | _ => acc)
      ([], []) elems).1 = survivingOptionValues fuel checker elems := by
    simpa using objectArray_fold_values fuel checker elems ([], [])
  simp only [extractOptionsFromObjectArray]
  rw [hvals]
  by_cases hs : survivingOptionValues fuel checker elems = []
  · rw [hs]
    cases elems with
    | nil => simp [createSelectOptionsResult, Except.isOk, Except.toBool]
    | cons a l => simp [createSelectOptionsResult, Except.isOk, Except.toBool]
  · have hlen : ((survivingOptionValues fuel checker elems).length == 0) = false := by
      simp [List.length_eq_zero, hs]
    simp [hlen, createSelectOptionsResult, Except.isOk, Except.toBool, hs]

/-- The literal `options` array of the C10 witness: a good option
object, an option object with no `value` property, an unresolvable
spread, and another good option object. -/
def C10sampleElems : List TsNode :=
  [.objectLit [.assign "value" (.strLit "keep"), .assign "label" (.strLit "Keep")],
   .objectLit [.assign "label" (.strLit "broken")],
   .spreadElem (.ident "unknownSpread"),
   .objectLit [.assign "value" (.strLit "second")]]

theorem C10_literal_array_silent_omission_witness :
    extractOptionsFromObjectArray 3 emptyChecker C10sampleElems
      = .ok { values := [JsLit.str "keep", JsLit.str "second"],
              labels := [("keep", "Keep")] } ∧
    survivingOptionValues 3 emptyChecker C10sampleElems
      = [JsLit.str "keep", JsLit.str "second"] :=
  ⟨rfl, ((C10_literal_array_silent_omission 3 emptyChecker C10sampleElems).2
      { values := [JsLit.str "keep", JsLit.str "second"],
        labels := [("keep", "Keep")] } rfl).symm⟩
